import Mathlib

/-!
# goatutils: `pkg/subscribableevent` and `pkg/canbus`

A shallow embedding of the two packages and the properties proved about them.

Conventions of the embedding

* A Go call ends in one of three ways: it returns, it panics, or it blocks for
  ever on a mutex.  `Res` records which.
* `uint` is a natural number reduced modulo `2 ^ uintSize`, where `uintSize`
  is Go's `bits.UintSize` (32 or 64, depending on the platform).
* A Go `map` is an association list without duplicate keys (`AList`); the
  unspecified iteration order of `range` over a map is an explicit oracle.
* Package `reflect` is modelled as documented by the Go standard library:
  `Kind`, `ValueOf`, `AssignableTo` and the checks of `Value.Call`.
* A callback value may be the nil func value, and the body of a callback may
  panic; `Faults` tells which.  What a body does to the event it is subscribed
  to is given by a list of `Action`s.
-/

namespace subscribableevent

/-! ## Package `reflect` -/

/-- The `reflect.Kind` enumeration. -/
inductive Kind where
  | Invalid | Bool | Int | Int8 | Int16 | Int32 | Int64
  | Uint | Uint8 | Uint16 | Uint32 | Uint64 | Uintptr
  | Float32 | Float64 | Complex64 | Complex128
  | Array | Chan | Func | Interface | Map | Pointer | Slice | String | Struct
  | UnsafePointer
  deriving DecidableEq, Repr

/-- The `reflect.ChanDir` enumeration. -/
inductive ChanDir where
  | RecvDir | SendDir | BothDir
  deriving DecidableEq, Repr

/-- A Go type as package `reflect` describes it.  `name` is `Type.Name()`: the
name of a defined or predeclared type, and the empty string for a type literal
such as `[]int`.  `underlying` is the underlying type written as a type literal,
so that two types have identical underlying types exactly when these texts are
equal.  `methods` is the method set, each method with its signature.  For a
channel type `chanDir` is its direction and `elem` its element type.  Two types
are identical exactly when they are the same record. -/
structure GoType where
  name : String
  kind : Kind
  underlying : String
  methods : List String := []
  chanDir : ChanDir := ChanDir.BothDir
  elem : String := ""
  deriving DecidableEq, Repr

/-- The special rule for channels in `reflect`: `V` is a bidirectional channel
type, `T` or `V` is not a named type, and the element types are identical. -/
def specialChannelAssignability (T V : GoType) : Bool :=
  decide (V.chanDir = ChanDir.BothDir) && (decide (T.name = "") || decide (V.name = ""))
    && decide (T.elem = V.elem)

/-- The function `directlyAssignable(T, V)` of `reflect`: the types are
identical; otherwise at least one of them is not a named type, they have the
same kind, and either the special rule for channels applies or their
underlying types are identical. -/
def directlyAssignable (T V : GoType) : Bool :=
  if T = V then true
  else if (decide (T.name ≠ "") && decide (V.name ≠ "")) || decide (T.kind ≠ V.kind) then false
  else if decide (T.kind = Kind.Chan) && specialChannelAssignability T V then true
  else decide (T.underlying = V.underlying)

/-- The function `implements(T, V)` of `reflect`: `T` is an interface type and
the method set of `V` has every method of `T`. -/
def implements (T V : GoType) : Bool :=
  decide (T.kind = Kind.Interface) && T.methods.all (fun m => V.methods.contains m)

/-- Assignability `V.AssignableTo(T)`: a value of type `V` is directly
assignable to `T`, or `T` is an interface type that `V` implements. -/
def AssignableTo (V T : GoType) : Bool :=
  directlyAssignable T V || implements T V

/-- A value passed to a parameter of type `any`: the nil interface, or a value
together with its dynamic type. -/
inductive Arg where
  | nil
  | val (typ : GoType) (data : Nat)
  deriving DecidableEq, Repr

/-- The kind of `reflect.ValueOf(a)`: `Invalid` for the nil interface (the zero
`reflect.Value`), otherwise the kind of the dynamic type. -/
def Arg.Kind : Arg → Kind
  | Arg.nil => Kind.Invalid
  | Arg.val t _ => t.kind

/-- The `reflect.Type` of a callback type `F`: its kind, its parameter types
(`In(i)` for `i < NumIn()`), and for a variadic function the element type of
the final slice parameter. -/
structure FuncType where
  kind : Kind
  ins : List GoType
  variadicElem : Option GoType := none
  deriving DecidableEq, Repr

/-- The number of parameters. -/
def FuncType.NumIn (tt : FuncType) : Nat := tt.ins.length

/-- A `reflect.Value` that holds a function value, nil or not. -/
structure ReflectValue (F : Type) where
  fn : F
  deriving DecidableEq, Repr

/-- The function `reflect.ValueOf` on a callback. -/
def ValueOf {F : Type} (callback : F) : ReflectValue F := ⟨callback⟩

/-- Whether every argument is assignable to the parameter at its position. -/
def assignableAll : List Arg → List GoType → Bool
  | [], _ => true
  | _ :: _, [] => true
  | Arg.nil :: _, _ :: _ => false
  | Arg.val t _ :: as, p :: ps => AssignableTo t p && assignableAll as ps

/-- The argument checks of `reflect.Value.Call` on a non-nil function of type
`tt`; `true` when the function is entered, `false` when `Call` panics.  For a
non-variadic function the number of arguments is the number of parameters; for
a variadic one there are at least `NumIn() - 1`.  No argument is the zero
`Value`.  The fixed arguments are assignable to their parameters, and the
remaining arguments of a variadic call are assignable to the element type. -/
def callAccepts (tt : FuncType) (argVs : List Arg) : Bool :=
  match tt.variadicElem with
  | none =>
      decide (argVs.length = tt.NumIn) && argVs.all (fun a => decide (a.Kind ≠ Kind.Invalid))
        && assignableAll argVs tt.ins
  | some elem =>
      decide (tt.NumIn - 1 ≤ argVs.length) && argVs.all (fun a => decide (a.Kind ≠ Kind.Invalid))
        && assignableAll (argVs.take (tt.NumIn - 1)) tt.ins
        && assignableAll (argVs.drop (tt.NumIn - 1))
             (List.replicate (argVs.length - (tt.NumIn - 1)) elem)

/-! ## Outcomes -/

/-- The panics raised by the package. -/
inductive Panic where
  /-- The panic of `NewEvent`: the type argument is not a function type. -/
  | invalidKind (kind : Kind)
  /-- The panic of `Fire`: called with `na` arguments instead of `want`. -/
  | paramCount (na want : Nat)
  /-- The panic of `Fire`: an argument of kind `got` where `want` is declared. -/
  | invalidArgKind (got want : Kind)
  /-- A panic raised inside `reflect.Value.Call` by its argument checks. -/
  | reflectCall
  /-- The panic of `reflect.Value.Call` on a nil func value, "call of nil
  function". -/
  | nilFunc
  /-- A panic raised by the body of a callback. -/
  | callback
  deriving DecidableEq, Repr

/-- How a call ends. -/
inductive Res (α : Type) where
  | ret (a : α)
  | panic (p : Panic)
  | blocked
  deriving DecidableEq, Repr

/-- The error values returned by the package. -/
inductive Error where
  /-- The error "subscription %d not found". -/
  | notFound (subId : Nat)
  deriving DecidableEq, Repr

/-! ## The event -/

/-- The Go type `SubscriptionId`, a `uint`. -/
abbrev SubscriptionId := Nat

/-- The Go struct `trackedSub[F]`. -/
structure trackedSub (F : Type) where
  subId : SubscriptionId
  callback : F
  callbackReflect : ReflectValue F
  deriving DecidableEq, Repr

/-- The Go struct `Event[F]`.  `subMutex` is `true` while the mutex is held. -/
structure Event (F : Type) where
  subMutex : Bool
  lastSubId : SubscriptionId
  subs : AList (fun _ : SubscriptionId => trackedSub F)
  argKinds : List Kind

/-- The function `NewEvent[F]`, for `tt` the `reflect.Type` of `F`. -/
def NewEvent {F : Type} (tt : FuncType) : Res (Event F) :=
  if tt.kind ≠ Kind.Func then
    Res.panic (Panic.invalidKind tt.kind)
  else
    Res.ret
      { subMutex := false
        lastSubId := 0
        subs := ∅
        argKinds := tt.ins.map GoType.kind }

/-- The call `e.subMutex.Lock()`: `none` when the mutex is already held, in
which case the caller blocks. -/
def Lock {F : Type} (e : Event F) : Option (Event F) :=
  if e.subMutex then none else some { e with subMutex := true }

/-- The call `e.subMutex.Unlock()`. -/
def Unlock {F : Type} (e : Event F) : Event F :=
  { e with subMutex := false }

/-- The method `Event.Subscribe`: the event afterwards and the returned id. -/
def Subscribe {F : Type} (uintSize : Nat) (e : Event F) (callback : F) :
    Res (Event F × SubscriptionId) :=
  match Lock e with
  | none => Res.blocked
  | some e1 =>
      let e2 := { e1 with lastSubId := (e1.lastSubId + 1) % 2 ^ uintSize }
      let ts : trackedSub F :=
        { subId := e2.lastSubId
          callback := callback
          callbackReflect := ValueOf callback }
      let e3 := { e2 with subs := e2.subs.insert ts.subId ts }
      Res.ret (Unlock e3, ts.subId)

/-- The method `Event.Unsubscribe`: the event afterwards and the returned
error (`none` for `nil`). -/
def Unsubscribe {F : Type} (e : Event F) (subId : SubscriptionId) :
    Res (Event F × Option Error) :=
  match Lock e with
  | none => Res.blocked
  | some e1 =>
      match e1.subs.lookup subId with
      | none => Res.ret (Unlock e1, some (Error.notFound subId))
      | some _ => Res.ret (Unlock { e1 with subs := e1.subs.erase subId }, none)

/-! ## Iterating over the map -/

/-- Puts `x` at index `k` of `l`, or at the end when `l` is shorter. -/
def insertAt {α : Type} (k : Nat) (x : α) (l : List α) : List α :=
  l.take k ++ x :: l.drop k

/-- The order in which `range` visits the entries of a map.  Go leaves it
unspecified; the oracle `order` picks it, and every order can be picked. -/
def rangeOrder {α : Type} : List Nat → List α → List α
  | _, [] => []
  | [], x :: xs => x :: xs
  | k :: ks, x :: xs => insertAt k x (rangeOrder ks xs)

/-! ## Firing -/

/-- A statement of a callback body that touches the event the callback is
subscribed to. -/
inductive Action (F : Type) where
  | subscribe (callback : F)
  | unsubscribe (subId : SubscriptionId)

/-- What can go wrong when a callback value is called.  `isNil` tells the nil
func values; `Subscribe` stores them like any other value.  `panics` tells the
calls whose body panics instead of returning, after the statements that the
body ran until then. -/
structure Faults (F : Type) where
  isNil : F → Bool
  panics : F → List Arg → Bool

/-- The observable steps of an execution. -/
inductive Ev (F : Type) where
  /-- The call `fn.Call(argVs)` entered the body of `fn`; `mutexHeld` is the
  state of the mutex at that moment. -/
  | call (fn : ReflectValue F) (argVs : List Arg) (mutexHeld : Bool)
  /-- A call of `Subscribe(callback)` returned `subId`. -/
  | subscribed (callback : F) (subId : SubscriptionId)
  /-- A call of `Unsubscribe(subId)` returned `err`. -/
  | unsubscribed (subId : SubscriptionId) (err : Option Error)
  deriving DecidableEq, Repr

/-- The result of running code on an event: the event afterwards, the steps
taken, and how the run ended. -/
structure Run (F : Type) where
  event : Event F
  trace : List (Ev F)
  outcome : Res Unit

/-- Puts the steps `pre` in front of a run. -/
def Run.after {F : Type} (pre : List (Ev F)) (r : Run F) : Run F :=
  { r with trace := pre ++ r.trace }

/-- Runs the statements of a callback body. -/
def runActions {F : Type} (uintSize : Nat) : List (Action F) → Event F → Run F
  | [], e => ⟨e, [], Res.ret ()⟩
  | Action.subscribe cb :: rest, e =>
      match Subscribe uintSize e cb with
      | Res.ret (e1, subId) => (runActions uintSize rest e1).after [Ev.subscribed cb subId]
      | Res.panic p => ⟨e, [], Res.panic p⟩
      | Res.blocked => ⟨e, [], Res.blocked⟩
  | Action.unsubscribe subId :: rest, e =>
      match Unsubscribe e subId with
      | Res.ret (e1, err) => (runActions uintSize rest e1).after [Ev.unsubscribed subId err]
      | Res.panic p => ⟨e, [], Res.panic p⟩
      | Res.blocked => ⟨e, [], Res.blocked⟩

/-- The validation loop of `Fire` over the arguments and `e.argKinds`. -/
def checkKinds : List Arg → List Kind → Option Panic
  | [], _ => none
  | _ :: _, [] => none
  | a :: as, k :: ks =>
      if k ≠ Kind.Interface then
        if a.Kind ≠ k then some (Panic.invalidArgKind a.Kind k) else checkKinds as ks
      else checkKinds as ks

/-- The loop `for i := range toCall { toCall[i].Call(argVs) }` of `Fire`.
`tt` is the type of the callbacks and `body` gives the statements each
callback runs when called.  `Call` panics on a nil func value, then on
arguments that fail its checks, and otherwise enters the function; a panic of
the body goes up through `Call` and `Fire`, neither of which recovers, so the
loop ends there. -/
def callLoop {F : Type} (uintSize : Nat) (tt : FuncType) (faults : Faults F)
    (body : F → List Arg → List (Action F))
    (argVs : List Arg) : List (ReflectValue F) → Event F → Run F
  | [], e => ⟨e, [], Res.ret ()⟩
  | fn :: rest, e =>
      if faults.isNil fn.fn then ⟨e, [], Res.panic Panic.nilFunc⟩
      else if callAccepts tt argVs then
        let r := (runActions uintSize (body fn.fn argVs) e).after [Ev.call fn argVs e.subMutex]
        match r.outcome with
        | Res.ret _ =>
            if faults.panics fn.fn argVs then ⟨r.event, r.trace, Res.panic Panic.callback⟩
            else (callLoop uintSize tt faults body argVs rest r.event).after r.trace
        | _ => r
      else ⟨e, [], Res.panic Panic.reflectCall⟩

/-- The method `Event.Fire`.  `order` is the iteration order of the map. -/
def Fire {F : Type} (uintSize : Nat) (tt : FuncType) (faults : Faults F)
    (body : F → List Arg → List (Action F))
    (order : List Nat) (e : Event F) (args : List Arg) : Run F :=
  match Lock e with
  | none => ⟨e, [], Res.blocked⟩
  | some e1 =>
      let toCall := (rangeOrder order e1.subs.entries).map (fun s => s.2.callbackReflect)
      let e2 := Unlock e1
      let na := args.length
      if na ≠ e2.argKinds.length then
        ⟨e2, [], Res.panic (Panic.paramCount na e2.argKinds.length)⟩
      else
        match checkKinds args e2.argKinds with
        | some p => ⟨e2, [], Res.panic p⟩
        | none => callLoop uintSize tt faults body args toCall e2

/-! ## Sequences of calls -/

/-- A call made on an event from outside its callbacks. -/
inductive Op (F : Type) where
  | subscribe (callback : F)
  | unsubscribe (subId : SubscriptionId)
  | fire (order : List Nat) (args : List Arg)

/-- Runs a sequence of calls one after the other.  A panic of `Fire` is
recovered by the caller, who goes on with the next call; a call that blocks
ends the run. -/
def runOps {F : Type} (uintSize : Nat) (tt : FuncType) (faults : Faults F)
    (body : F → List Arg → List (Action F)) : List (Op F) → Event F → Run F
  | [], e => ⟨e, [], Res.ret ()⟩
  | Op.subscribe cb :: ops, e =>
      match Subscribe uintSize e cb with
      | Res.ret (e1, subId) => (runOps uintSize tt faults body ops e1).after [Ev.subscribed cb subId]
      | Res.panic p => ⟨e, [], Res.panic p⟩
      | Res.blocked => ⟨e, [], Res.blocked⟩
  | Op.unsubscribe subId :: ops, e =>
      match Unsubscribe e subId with
      | Res.ret (e1, err) => (runOps uintSize tt faults body ops e1).after [Ev.unsubscribed subId err]
      | Res.panic p => ⟨e, [], Res.panic p⟩
      | Res.blocked => ⟨e, [], Res.blocked⟩
  | Op.fire order args :: ops, e =>
      let r := Fire uintSize tt faults body order e args
      match r.outcome with
      | Res.blocked => r
      | _ => (runOps uintSize tt faults body ops r.event).after r.trace

/-- The ids returned by the calls of `Subscribe` in a trace, in order. -/
def subscribedIds {F : Type} : List (Ev F) → List SubscriptionId
  | [] => []
  | Ev.subscribed _ subId :: t => subId :: subscribedIds t
  | _ :: t => subscribedIds t

/-- The callback invocations in a trace, in order: the function called, the
arguments it was given, and whether the mutex was held at that moment. -/
def calls {F : Type} : List (Ev F) → List (ReflectValue F × List Arg × Bool)
  | [] => []
  | Ev.call fn argVs held :: t => (fn, argVs, held) :: calls t
  | _ :: t => calls t

/-- The callbacks of the snapshot `toCall` that the loop of `Fire` enters when
`Call` accepts the arguments: those before the first nil func value, and of
these none after the first whose body panics. -/
def dispatched {F : Type} (faults : Faults F) (argVs : List Arg) :
    List (ReflectValue F) → List (ReflectValue F)
  | [] => []
  | fn :: rest =>
      if faults.isNil fn.fn then []
      else if faults.panics fn.fn argVs then [fn]
      else fn :: dispatched faults argVs rest

/-- The ids `ids` are handed out one after the other by a counter that stands
at `a`: each is the previous one plus one, modulo `2 ^ w`. -/
def chain (w : Nat) : Nat → List Nat → Prop
  | _, [] => True
  | a, x :: xs => x = (a + 1) % 2 ^ w ∧ chain w x xs

/-- Where a counter that stands at `a` stands after handing out `ids`. -/
def endId : Nat → List Nat → Nat
  | a, [] => a
  | _, x :: xs => endId x xs

/-- The effect on the map of one step of a trace: a subscription stores its
entry, a successful removal deletes its key, every other step leaves the map. -/
def applyStep {F : Type} (m : AList (fun _ : SubscriptionId => trackedSub F)) :
    Ev F → AList (fun _ : SubscriptionId => trackedSub F)
  | Ev.subscribed cb subId =>
      m.insert subId { subId := subId, callback := cb, callbackReflect := ValueOf cb }
  | Ev.unsubscribed subId none => m.erase subId
  | _ => m

/-- The map obtained from `m` by the steps of a trace, in order. -/
def replay {F : Type} (trace : List (Ev F))
    (m : AList (fun _ : SubscriptionId => trackedSub F)) :
    AList (fun _ : SubscriptionId => trackedSub F) :=
  trace.foldl applyStep m

/-- Whether `subId` is registered after a step of a trace, given whether it
was registered before the step. -/
def liveStep {F : Type} (subId : SubscriptionId) (b : Bool) : Ev F → Bool
  | Ev.subscribed _ i => if i = subId then true else b
  | Ev.unsubscribed i none => if i = subId then false else b
  | _ => b

/-- Whether `subId` is registered after a trace, given whether it was before:
`true` when the last step that concerns `subId` is a `Subscribe` that returned
it, `false` when that step is an `Unsubscribe(subId)` that returned nil. -/
def live {F : Type} (subId : SubscriptionId) (trace : List (Ev F)) (b : Bool) : Bool :=
  trace.foldl (liveStep subId) b

/-- What every run `r` from an event `e` with a free mutex keeps: the mutex is
free again, the run did not block, `argKinds` is untouched, `lastSubId` counts
the calls of `Subscribe`, and the map is the one the steps of the run produce. -/
def Tracks {F : Type} (w : Nat) (e : Event F) (r : Run F) : Prop :=
  r.event.subMutex = false ∧ r.outcome ≠ Res.blocked ∧ r.event.argKinds = e.argKinds ∧
    chain w e.lastSubId (subscribedIds r.trace) ∧
    r.event.lastSubId = endId e.lastSubId (subscribedIds r.trace) ∧
    r.event.subs = replay r.trace e.subs

/-! ## Example data -/

/-- The predeclared type `int`. -/
def tInt : GoType := { name := "int", kind := Kind.Int, underlying := "int" }

/-- The predeclared type `string`. -/
def tString : GoType := { name := "string", kind := Kind.String, underlying := "string" }

/-- A defined type `type MyInt int`. -/
def tMyInt : GoType := { name := "MyInt", kind := Kind.Int, underlying := "int" }

/-- The type literal `[]int`. -/
def tSliceInt : GoType := { name := "", kind := Kind.Slice, underlying := "[]int" }

/-- A defined type `type IntSlice []int`. -/
def tIntSlice : GoType := { name := "IntSlice", kind := Kind.Slice, underlying := "[]int" }

/-- The callback type `func(int, string)`. -/
def funcIntString : FuncType := { kind := Kind.Func, ins := [tInt, tString] }

/-- The callback type `func(int)`. -/
def funcInt : FuncType := { kind := Kind.Func, ins := [tInt] }

/-- The callback type `func([]int)`. -/
def funcSliceInt : FuncType := { kind := Kind.Func, ins := [tSliceInt] }

/-- The callback type `func()`. -/
def funcNone : FuncType := { kind := Kind.Func, ins := [] }

/-- The event returned by `NewEvent[F]()` for `F` of type `tt`. -/
def freshEvent (F : Type) (tt : FuncType) : Event F :=
  { subMutex := false, lastSubId := 0, subs := ∅, argKinds := tt.ins.map GoType.kind }

/-- Example callback bodies: callback 0 subscribes callback 10, callback 1
unsubscribes the id 3, and every other callback leaves the event alone. -/
def exampleBody : Nat → List Arg → List (Action Nat)
  | 0, _ => [Action.subscribe 10]
  | 1, _ => [Action.unsubscribe 3]
  | _, _ => []

/-- The example arguments `(1, "a")`, the string held as a number. -/
def exampleArgs : List Arg := [Arg.val tInt 1, Arg.val tString 97]

/-- An example sequence of calls. -/
def exampleOps : List (Op Nat) :=
  [Op.subscribe 0, Op.subscribe 1, Op.unsubscribe 2, Op.subscribe 2,
    Op.fire [0, 1] exampleArgs, Op.unsubscribe 1]

/-- Callbacks that leave the event alone. -/
def noActions (F : Type) : F → List Arg → List (Action F) := fun _ _ => []

/-- No callback value is nil and no body panics. -/
def noFaults (F : Type) : Faults F := { isNil := fun _ => false, panics := fun _ _ => false }

/-- The callback value 0 is the nil func value; no body panics. -/
def nilZero : Faults Nat := { isNil := fun f => f == 0, panics := fun _ _ => false }


/-- An `Event[func(int)]` after `Subscribe` was called once, with callback 5. -/
def oneSubscriber : Event Nat :=
  (runOps 64 funcInt (noFaults Nat) (noActions Nat) [Op.subscribe 5] (freshEvent Nat funcInt)).event

/-- An `Event[func([]int)]` after `Subscribe` was called once, with callback 5. -/
def sliceSubscriber : Event Nat :=
  (runOps 64 funcSliceInt (noFaults Nat) (noActions Nat) [Op.subscribe 5]
    (freshEvent Nat funcSliceInt)).event

/-- An `Event[func(int, string)]` with the subscriptions 1 (callback 0), 2
(callback 1) and 3 (callback 2). -/
def threeSubscribers : Event Nat :=
  (runOps 64 funcIntString (noFaults Nat) exampleBody [Op.subscribe 0, Op.subscribe 1, Op.subscribe 2]
    (freshEvent Nat funcIntString)).event

/-- The run of `Fire(1, "a")` on `threeSubscribers` that visits the
subscriptions in the order 2, 1, 3: callback 1 removes the subscription 3
before its callback 2 is reached, and callback 0 subscribes callback 10. -/
def exampleFire : Run Nat :=
  Fire 64 funcIntString (noFaults Nat) exampleBody [2, 0] threeSubscribers exampleArgs

/-- The `Event[func()]` after `2 ^ uintSize` calls of `Subscribe` on a new
event, none of them followed by an `Unsubscribe`. -/
def wrapped (uintSize : Nat) : Event Unit :=
  (runOps uintSize funcNone (noFaults Unit) (noActions Unit) (List.replicate (2 ^ uintSize) (Op.subscribe ()))
    (freshEvent Unit funcNone)).event

end subscribableevent

namespace canbus

/-!
# Package `canbus`

The operating system and the libraries the package calls are the environment of
the embedding.

* `World` is what `netlink.LinkByName` reads: the links by interface name.
* `Env` answers the calls that leave the process: how `cmd.Output()` ends for an
  `ip` command, and what the `can` bus library returns.  An `ip` command that
  ends without error has its effect on the world (`Cmd.effect`); one that ends
  with an error leaves the world as it was.
* Every call into the environment is recorded as an `Effect`.
* Logging does not influence control flow and is left out; the logger is taken
  to be non-nil.
-/

/-- The type `netlink.LinkOperState`. -/
inductive LinkOperState where
  | OperUnknown | OperNotPresent | OperDown | OperLowerLayerDown
  | OperTesting | OperDormant | OperUp
  deriving DecidableEq, Repr

/-- A link as `netlink.LinkByName` returns it: the result of `Type()`, the
field `Attrs().OperState`, and the field `BitRate` (a `uint32`) of a
`*netlink.Can`.  The links of type "can" are the values of `*netlink.Can`. -/
structure Link where
  linkType : String
  OperState : LinkOperState
  BitRate : Nat
  deriving DecidableEq, Repr

/-- The links of the machine, by interface name. -/
structure World where
  links : List (String × Link)
  deriving DecidableEq, Repr

/-- The function `netlink.LinkByName`; `none` is its error. -/
def LinkByName (w : World) (name : String) : Option Link :=
  w.links.lookup name

/-- Changes the link called `name`. -/
def World.update (w : World) (name : String) (f : Link → Link) : World :=
  { links := w.links.map (fun p => if p.1 = name then (p.1, f p.2) else p) }

/-- The conversion `uint32(x)` of an `int32`. -/
def uint32 (x : Int) : Nat := (x % 2 ^ 32).toNat

/-- The two reconfiguration commands the package runs. -/
inductive Cmd where
  /-- The command `ip link set <name> down`. -/
  | linkSetDown (name : String)
  /-- The command `ip link set <name> up type can bitrate <bitRate>`. -/
  | linkSetUp (name : String) (bitRate : Int)
  deriving DecidableEq, Repr

/-- The argument vector of a command, as passed to `exec.CommandContext`. -/
def Cmd.Args : Cmd → List String
  | Cmd.linkSetDown name => ["ip", "link", "set", name, "down"]
  | Cmd.linkSetUp name bitRate =>
      ["ip", "link", "set", name, "up", "type", "can", "bitrate", toString bitRate]

/-- The effect on the world of a command that ended without error. -/
def Cmd.effect : Cmd → World → World
  | Cmd.linkSetDown name, w =>
      w.update name (fun l => { l with OperState := LinkOperState.OperDown })
  | Cmd.linkSetUp name bitRate, w =>
      w.update name (fun l => { l with OperState := LinkOperState.OperUp, BitRate := uint32 bitRate })

/-- How `cmd.Output()` ends: without error, with an `*exec.ExitError`, or with
an error of another type (the executable could not be started, for one). -/
inductive CmdResult where
  | ok (output : String)
  | exitError (output : String) (stderr : String)
  | otherError (output : String)
  deriving DecidableEq, Repr

/-- A `*can.Bus`, opened for an interface. -/
structure Bus where
  ifName : String
  deriving DecidableEq, Repr

/-- A `can.Frame`, passed through unexamined. -/
structure Frame where
  ID : Nat
  Length : Nat
  Data : List Nat
  deriving DecidableEq, Repr

/-- A `can.Handler` made by `can.NewHandler` from a message handler. -/
structure Handler where
  fn : Nat
  deriving DecidableEq, Repr

/-- The error values. -/
inductive Error where
  /-- The error "no link found for <name>". -/
  | noLinkFound (name : String)
  /-- The error "invalid linktype <type>". -/
  | invalidLinkType (linkType : String)
  /-- The `*exec.ExitError` of a command. -/
  | exitError (cmd : Cmd) (stderr : String)
  /-- An error returned by the bus library. -/
  | bus (msg : String)
  /-- The result of `errors.Wrap(err, msg)`. -/
  | wrap (err : Error) (msg : String)
  deriving DecidableEq, Repr

/-- The panics. -/
inductive Panic where
  /-- A nil pointer dereference. -/
  | nilDereference
  /-- A failed type assertion `link.(*netlink.Can)`. -/
  | typeAssertion
  deriving DecidableEq, Repr

/-- How a call ends: it returns nil, returns an error, or panics. -/
inductive Outcome where
  | nil
  | error (err : Error)
  | panic (p : Panic)
  deriving DecidableEq, Repr

/-- The answers of the environment. -/
structure Env where
  /-- How `cmd.Output()` ends for a command. -/
  Output : Cmd → CmdResult
  /-- The result of `can.NewBusForInterfaceWithName`. -/
  NewBusForInterfaceWithName : String → Except Error Bus
  /-- The result of `bus.Disconnect()`; `none` is nil. -/
  Disconnect : Bus → Option Error
  /-- The result of `bus.Publish(frame)`; `none` is nil. -/
  Publish : Bus → Frame → Option Error

/-- The calls into the environment. -/
inductive Effect where
  | linkByName (name : String)
  | exec (cmd : Cmd)
  | newBus (name : String)
  | goConnectAndPublish (bus : Bus)
  | busSubscribe (bus : Bus) (handler : Option Handler)
  | busUnsubscribe (bus : Bus) (handler : Option Handler)
  | busDisconnect (bus : Bus)
  | busPublish (bus : Bus) (frame : Frame)
  deriving DecidableEq, Repr

/-- Modelled from the spec: the struct `ChannelOptions` is declared in a file of
the package other than `channel.go`; `channel.go` reads its fields
`CanInterfaceName` and `MessageHandler`, the interface name and the message
handler of the spec's channel configuration. -/
structure ChannelOptions where
  CanInterfaceName : String
  MessageHandler : Nat
  deriving DecidableEq, Repr

/-- The Go struct `Channel`, without its logger.  `bitRate` is an `int32`. -/
structure Channel where
  bitRate : Int
  ChannelOptions : ChannelOptions
  bus : Option Bus
  busHandler : Option Handler
  deriving DecidableEq, Repr

/-- The result of running code of the package: the channel and the world
afterwards, the calls made into the environment, and how the run ended. -/
structure Result where
  channel : Channel
  world : World
  trace : List Effect
  outcome : Outcome
  deriving DecidableEq, Repr

/-- The reconfiguration commands issued in a trace, in order. -/
def commands : List Effect → List Cmd
  | [] => []
  | Effect.exec cmd :: t => cmd :: commands t
  | _ :: t => commands t

/-- The failure branch after `cmd.Output()` returned `err != nil`: the branch
reads `errCast.Stderr` when the type assertion `err.(*exec.ExitError)` did NOT
work, so with `errCast == nil`, and otherwise returns `err`. -/
def commandFailed (cmd : Cmd) : CmdResult → Outcome
  | CmdResult.ok _ => Outcome.nil
  | CmdResult.exitError _ stderr => Outcome.error (Error.exitError cmd stderr)
  | CmdResult.otherError _ => Outcome.panic Panic.nilDereference

/-- Lines 86 to 114 of `Channel.open`: with `canLink` the current link and
`pre` the calls made so far, bring the link up if it is down. -/
def bringUpIfDown (env : Env) (w : World) (c : Channel) (canLink : Link) (pre : List Effect) :
    Result :=
  if canLink.OperState = LinkOperState.OperDown then
    let cmd := Cmd.linkSetUp c.ChannelOptions.CanInterfaceName c.bitRate
    match env.Output cmd with
    | CmdResult.ok _ => ⟨c, cmd.effect w, pre ++ [Effect.exec cmd], Outcome.nil⟩
    | res => ⟨c, w, pre ++ [Effect.exec cmd], commandFailed cmd res⟩
  else
    ⟨c, w, pre, Outcome.nil⟩

/-- Lines 51 to 114 of `Channel.open`, the reconciliation of the link. -/
def reconcile (env : Env) (w : World) (c : Channel) : Result :=
  let name := c.ChannelOptions.CanInterfaceName
  match LinkByName w name with
  | none => ⟨c, w, [Effect.linkByName name], Outcome.error (Error.noLinkFound name)⟩
  | some link =>
      if link.linkType ≠ "can" then
        ⟨c, w, [Effect.linkByName name], Outcome.error (Error.invalidLinkType link.linkType)⟩
      else if link.OperState = LinkOperState.OperUp then
        if link.BitRate ≠ uint32 c.bitRate then
          let cmd := Cmd.linkSetDown name
          match env.Output cmd with
          | CmdResult.ok _ =>
              let w1 := cmd.effect w
              let pre := [Effect.linkByName name, Effect.exec cmd, Effect.linkByName name]
              match LinkByName w1 name with
              | none => ⟨c, w1, pre, Outcome.error (Error.noLinkFound name)⟩
              | some link1 =>
                  if link1.linkType ≠ "can" then
                    ⟨c, w1, pre, Outcome.panic Panic.typeAssertion⟩
                  else bringUpIfDown env w1 c link1 pre
          | res =>
              ⟨c, w, [Effect.linkByName name, Effect.exec cmd], commandFailed cmd res⟩
        else bringUpIfDown env w c link [Effect.linkByName name]
      else bringUpIfDown env w c link [Effect.linkByName name]

/-- The method `Channel.open`: the reconciliation of the link, then lines 116
to 132, the opening of the bus. -/
def Channel.open (env : Env) (w : World) (c : Channel) : Result :=
  let r := reconcile env w c
  match r.outcome with
  | Outcome.nil =>
      let name := c.ChannelOptions.CanInterfaceName
      match env.NewBusForInterfaceWithName name with
      | Except.error err => { r with trace := r.trace ++ [Effect.newBus name], outcome := Outcome.error err }
      | Except.ok bus =>
          let handler := Handler.mk c.ChannelOptions.MessageHandler
          { channel := { c with bus := some bus, busHandler := some handler }
            world := r.world
            trace := r.trace ++ [Effect.newBus name, Effect.goConnectAndPublish bus,
              Effect.busSubscribe bus (some handler)]
            outcome := Outcome.nil }
  | _ => r

/-- The function `NewChannel`: the returned `*Channel` (`none` for nil) and the
run of `open`.  `DefaultBitRate` is a constant of the package declared outside
`channel.go`; an option is a function applied to the channel. -/
def NewChannel (DefaultBitRate : Int) (env : Env) (w : World) (ChannelOptions : ChannelOptions)
    (opts : List (Channel → Channel)) : Option Channel × Result :=
  let c : Channel :=
    { ChannelOptions := ChannelOptions, bitRate := DefaultBitRate, bus := none, busHandler := none }
  let c := opts.foldl (fun c opt => opt c) c
  let r := Channel.open env w c
  match r.outcome with
  | Outcome.nil => (some r.channel, r)
  | Outcome.error err =>
      (none, { r with outcome := Outcome.error (Error.wrap err "open connection to listen for messages") })
  | Outcome.panic _ => (none, r)

/-- The method `Channel.Close`: the channel afterwards (the method assigns no
field of it), the calls made on the bus, and the result. -/
def Channel.Close (env : Env) (c : Channel) : Channel × List Effect × Outcome :=
  match c.bus with
  | none => (c, [], Outcome.nil)
  | some bus =>
      match env.Disconnect bus with
      | some err =>
          (c, [Effect.busUnsubscribe bus c.busHandler, Effect.busDisconnect bus],
            Outcome.error (Error.wrap err "close underlying bus connection"))
      | none =>
          (c, [Effect.busUnsubscribe bus c.busHandler, Effect.busDisconnect bus], Outcome.nil)

/-- The method `Channel.WriteFrame`, the call `c.bus.Publish(frame)`: with a
nil `c.bus` the method `Publish` dereferences its nil receiver. -/
def Channel.WriteFrame (env : Env) (c : Channel) (frame : Frame) : List Effect × Outcome :=
  match c.bus with
  | none => ([], Outcome.panic Panic.nilDereference)
  | some bus =>
      match env.Publish bus frame with
      | some err => ([Effect.busPublish bus frame], Outcome.error err)
      | none => ([Effect.busPublish bus frame], Outcome.nil)

/-! ## Example data -/

/-- A world with the CAN interface "can0" up at 500000 bit/s and the Ethernet
interface "eth0". -/
def worldUp500k : World :=
  { links := [("can0", ⟨"can", LinkOperState.OperUp, 500000⟩),
      ("eth0", ⟨"device", LinkOperState.OperUp, 0⟩)] }

/-- A world with the CAN interface "can0" up at 250000 bit/s. -/
def worldUp250k : World :=
  { links := [("can0", ⟨"can", LinkOperState.OperUp, 250000⟩)] }

/-- A world with the CAN interface "can0" in state unknown at 500000 bit/s. -/
def worldUnknown500k : World :=
  { links := [("can0", ⟨"can", LinkOperState.OperUnknown, 500000⟩)] }

/-- An environment in which every command and every bus call succeeds. -/
def envOk : Env :=
  { Output := fun _ => CmdResult.ok ""
    NewBusForInterfaceWithName := fun name => Except.ok ⟨name⟩
    Disconnect := fun _ => none
    Publish := fun _ _ => none }

/-- An environment in which the `ip` commands exit with an error. -/
def envCommandsFail : Env :=
  { envOk with Output := fun _ => CmdResult.exitError "" "RTNETLINK answers: Operation not permitted" }

/-- A world with the CAN interface "can0" down, and the Ethernet interface
"eth0", whose `Type()` is "device". -/
def worldDown : World :=
  { links := [("can0", ⟨"can", LinkOperState.OperDown, 0⟩),
      ("eth0", ⟨"device", LinkOperState.OperUp, 0⟩)] }

/-- An environment in which the `ip` executable cannot be started: `cmd.Output()`
returns an error that is not an `*exec.ExitError`. -/
def envNoIp : Env :=
  { envOk with Output := fun _ => CmdResult.otherError "" }

/-- An environment in which the down command succeeds and the up command exits
with an error. -/
def envUpFails : Env :=
  { envOk with
    Output := fun cmd =>
      match cmd with
      | Cmd.linkSetDown _ => CmdResult.ok ""
      | Cmd.linkSetUp _ _ => CmdResult.exitError "" "RTNETLINK answers: Invalid argument" }

/-- The channel as `NewChannel` sets it up before it calls `open`: the
options, the default bit rate, then the functional options in order. -/
def configured (DefaultBitRate : Int) (ChannelOptions : ChannelOptions)
    (opts : List (Channel → Channel)) : Channel :=
  opts.foldl (fun c opt => opt c)
    { ChannelOptions := ChannelOptions, bitRate := DefaultBitRate, bus := none, busHandler := none }

/-- An example of a functional option: it sets the bit rate. -/
def withBitRate (bitRate : Int) : Channel → Channel :=
  fun c => { c with bitRate := bitRate }

/-- A channel for "can0" at 250000 bit/s, not opened. -/
def unopened : Channel :=
  { bitRate := 250000, ChannelOptions := ⟨"can0", 0⟩, bus := none, busHandler := none }

/-- The channel for "can0" at 250000 bit/s once `open` has succeeded. -/
def opened : Channel :=
  { bitRate := 250000, ChannelOptions := ⟨"can0", 0⟩, bus := some ⟨"can0"⟩,
    busHandler := some ⟨0⟩ }

/-- An example frame. -/
def exampleFrame : Frame := { ID := 291, Length := 2, Data := [1, 2] }

end canbus

namespace subscribableevent

/-! ## Basic facts -/

theorem Subscribe_unlocked {F : Type} (w : Nat) (e : Event F) (cb : F) (h : e.subMutex = false) :
    Subscribe w e cb = Res.ret
      ({ subMutex := false
         lastSubId := (e.lastSubId + 1) % 2 ^ w
         subs := e.subs.insert ((e.lastSubId + 1) % 2 ^ w)
           { subId := (e.lastSubId + 1) % 2 ^ w, callback := cb, callbackReflect := ValueOf cb }
         argKinds := e.argKinds }, (e.lastSubId + 1) % 2 ^ w) := by
  simp [Subscribe, Lock, Unlock, h]

theorem Unsubscribe_unlocked {F : Type} (e : Event F) (subId : SubscriptionId)
    (h : e.subMutex = false) :
    Unsubscribe e subId = Res.ret
      (match e.subs.lookup subId with
       | none => (e, some (Error.notFound subId))
       | some _ => ({ e with subs := e.subs.erase subId }, none)) := by
  cases e with
  | mk m l s a =>
    simp only at h
    subst h
    simp only [Unsubscribe, Lock, Unlock]
    cases hl : s.lookup subId <;> simp [hl]

theorem subscribedIds_append {F : Type} (s t : List (Ev F)) :
    subscribedIds (s ++ t) = subscribedIds s ++ subscribedIds t := by
  induction s with
  | nil => rfl
  | cons x s ih => cases x <;> simp [subscribedIds, ih]

theorem calls_append {F : Type} (s t : List (Ev F)) :
    calls (s ++ t) = calls s ++ calls t := by
  induction s with
  | nil => rfl
  | cons x s ih => cases x <;> simp [calls, ih]

theorem chain_append (w : Nat) : ∀ (l1 l2 : List Nat) (a : Nat),
    chain w a l1 → chain w (endId a l1) l2 → chain w a (l1 ++ l2)
  | [], _, _, _, h2 => h2
  | x :: xs, l2, _, h1, h2 => ⟨h1.1, chain_append w xs l2 x h1.2 h2⟩

theorem endId_append : ∀ (l1 l2 : List Nat) (a : Nat),
    endId a (l1 ++ l2) = endId (endId a l1) l2
  | [], _, _ => rfl
  | x :: xs, l2, _ => endId_append xs l2 x

/-- The `i`-th id handed out from a counter at `a` is `a + 1 + i` modulo `2 ^ w`. -/
theorem chain_getElem (w : Nat) : ∀ (ids : List Nat) (a : Nat), chain w a ids →
    ∀ (i : Nat) (h : i < ids.length), ids[i] = (a + 1 + i) % 2 ^ w
  | [], _, _, i, h => absurd h (Nat.not_lt_zero i)
  | x :: xs, a, hc, 0, _ => hc.1
  | x :: xs, a, hc, i + 1, h => by
      have ih := chain_getElem w xs x hc.2 i (Nat.lt_of_succ_lt_succ h)
      simp only [List.getElem_cons_succ]
      rw [ih, hc.1, Nat.add_assoc, Nat.mod_add_mod]
      congr 1
      omega

/-! ## Runs keep the mutex free and count the subscriptions -/

theorem Tracks_after {F : Type} (w : Nat) (e : Event F) (r1 r2 : Run F)
    (h1 : Tracks w e r1) (h2 : Tracks w r1.event r2) : Tracks w e (r2.after r1.trace) := by
  obtain ⟨_, _, a1, c1, l1, s1⟩ := h1
  obtain ⟨m2, o2, a2, c2, l2, s2⟩ := h2
  refine ⟨m2, o2, a2.trans a1, ?_, ?_, ?_⟩
  · simp only [Run.after, subscribedIds_append]
    exact chain_append w _ _ _ c1 (l1 ▸ c2)
  · simp only [Run.after, subscribedIds_append, endId_append]
    rw [← l1]; exact l2
  · simp only [Run.after, replay, List.foldl_append]
    rw [s2, s1]; rfl

theorem Tracks_nil {F : Type} (w : Nat) (e : Event F) (o : Res Unit) (h : e.subMutex = false)
    (ho : o ≠ Res.blocked) : Tracks w e ⟨e, [], o⟩ :=
  ⟨h, ho, rfl, trivial, rfl, rfl⟩

theorem Tracks_subscribe {F : Type} (w : Nat) (e : Event F) (cb : F) (h : e.subMutex = false) :
    ∃ e1 subId, Subscribe w e cb = Res.ret (e1, subId) ∧
      Tracks w e ⟨e1, [Ev.subscribed cb subId], Res.ret ()⟩ :=
  ⟨_, _, Subscribe_unlocked w e cb h, rfl, by simp, rfl, ⟨rfl, trivial⟩, rfl, rfl⟩

theorem Tracks_unsubscribe {F : Type} (w : Nat) (e : Event F) (subId : SubscriptionId)
    (h : e.subMutex = false) :
    ∃ e1 err, Unsubscribe e subId = Res.ret (e1, err) ∧
      Tracks w e ⟨e1, [Ev.unsubscribed subId err], Res.ret ()⟩ := by
  refine ⟨_, _, Unsubscribe_unlocked e subId h, ?_⟩
  cases e.subs.lookup subId <;> exact ⟨h, by simp, rfl, trivial, rfl, rfl⟩

theorem runActions_tracks {F : Type} (w : Nat) (acts : List (Action F)) :
    ∀ e : Event F, e.subMutex = false → Tracks w e (runActions w acts e) := by
  induction acts with
  | nil => intro e h; exact Tracks_nil w e _ h (by simp)
  | cons a rest ih =>
    intro e h
    cases a with
    | subscribe cb =>
      obtain ⟨e1, subId, hs, ht⟩ := Tracks_subscribe w e cb h
      simp only [runActions, hs]
      exact Tracks_after w e _ _ ht (ih e1 ht.1)
    | unsubscribe subId =>
      obtain ⟨e1, err, hs, ht⟩ := Tracks_unsubscribe w e subId h
      simp only [runActions, hs]
      exact Tracks_after w e _ _ ht (ih e1 ht.1)

theorem callLoop_tracks {F : Type} (w : Nat) (tt : FuncType)
    (faults : Faults F)
    (body : F → List Arg → List (Action F)) (argVs : List Arg) (toCall : List (ReflectValue F)) :
    ∀ e : Event F, e.subMutex = false → Tracks w e (callLoop w tt faults body argVs toCall e) := by
  induction toCall with
  | nil => intro e h; exact Tracks_nil w e _ h (by simp)
  | cons fn rest ih =>
    intro e h
    have hb := runActions_tracks w (body fn.fn argVs) e h
    have hc : Tracks w e
        ((runActions w (body fn.fn argVs) e).after [Ev.call fn argVs e.subMutex]) :=
      Tracks_after w e ⟨e, [Ev.call fn argVs e.subMutex], Res.ret ()⟩ _
        ⟨h, by simp, rfl, trivial, rfl, rfl⟩ hb
    unfold callLoop
    split
    · exact Tracks_nil w e _ h (by simp)
    · split
      · simp only
        split
        · split
          · exact ⟨hc.1, by simp, hc.2.2.1, hc.2.2.2.1, hc.2.2.2.2.1, hc.2.2.2.2.2⟩
          · exact Tracks_after w e _ _ hc (ih _ hc.1)
        · exact hc
      · exact Tracks_nil w e _ h (by simp)

theorem Unlock_Lock {F : Type} (e : Event F) (h : e.subMutex = false) :
    Unlock { e with subMutex := true } = e := by
  cases e; simp only [Unlock]; simp_all

theorem Fire_tracks {F : Type} (w : Nat) (tt : FuncType)
    (faults : Faults F)
    (body : F → List Arg → List (Action F)) (order : List Nat) (e : Event F) (args : List Arg)
    (h : e.subMutex = false) : Tracks w e (Fire w tt faults body order e args) := by
  simp only [Fire, Lock, h, Bool.false_eq_true, if_false, Unlock_Lock e h]
  split
  · exact Tracks_nil w e _ h (by simp)
  · split
    · exact Tracks_nil w e _ h (by simp)
    · exact callLoop_tracks w tt faults body args _ e h

theorem runOps_tracks {F : Type} (w : Nat) (tt : FuncType)
    (faults : Faults F)
    (body : F → List Arg → List (Action F)) (ops : List (Op F)) :
    ∀ e : Event F, e.subMutex = false → Tracks w e (runOps w tt faults body ops e) := by
  induction ops with
  | nil => intro e h; exact Tracks_nil w e _ h (by simp)
  | cons op rest ih =>
    intro e h
    cases op with
    | subscribe cb =>
      obtain ⟨e1, subId, hs, ht⟩ := Tracks_subscribe w e cb h
      simp only [runOps, hs]
      exact Tracks_after w e _ _ ht (ih e1 ht.1)
    | unsubscribe subId =>
      obtain ⟨e1, err, hs, ht⟩ := Tracks_unsubscribe w e subId h
      simp only [runOps, hs]
      exact Tracks_after w e _ _ ht (ih e1 ht.1)
    | fire order args =>
      have hf := Fire_tracks w tt faults body order e args h
      simp only [runOps]
      split
      · exact absurd ‹_› hf.2.1
      · exact Tracks_after w e _ _ hf (ih _ hf.1)

theorem NewEvent_eq {F : Type} (tt : FuncType) (e : Event F) (h : NewEvent tt = Res.ret e) :
    e = freshEvent F tt := by
  unfold NewEvent at h
  split at h
  · exact Res.noConfusion h
  · injection h with h; exact h.symm

/-- From a new event, the `i`-th call of `Subscribe` (counting from 0, and
counting the calls made by callbacks) returns `i + 1` modulo `2 ^ w`. -/
theorem runOps_ids {F : Type} (w : Nat) (tt : FuncType)
    (faults : Faults F)
    (body : F → List Arg → List (Action F)) (ops : List (Op F)) (i : Nat)
    (h : i < (subscribedIds (runOps w tt faults body ops (freshEvent F tt)).trace).length) :
    (subscribedIds (runOps w tt faults body ops (freshEvent F tt)).trace)[i] = (i + 1) % 2 ^ w := by
  have ht := runOps_tracks w tt faults body ops (freshEvent F tt) rfl
  have := chain_getElem w _ _ ht.2.2.2.1 i h
  rw [this]
  congr 1
  simp only [freshEvent]
  omega

/-- A run of `n` calls of `Subscribe` hands out `n` ids. -/
theorem runOps_replicate_length {F : Type} (w : Nat) (tt : FuncType)
    (faults : Faults F)
    (body : F → List Arg → List (Action F)) (cb : F) : ∀ (n : Nat) (e : Event F),
    e.subMutex = false →
    (subscribedIds (runOps w tt faults body (List.replicate n (Op.subscribe cb)) e).trace).length = n
  | 0, _, _ => rfl
  | n + 1, e, h => by
      obtain ⟨e1, subId, hs, ht⟩ := Tracks_subscribe w e cb h
      simp only [List.replicate_succ, runOps, hs, Run.after, List.singleton_append,
        subscribedIds, List.length_cons]
      rw [runOps_replicate_length w tt faults body cb n e1 ht.1]

/-- After `2 ^ w` calls of `Subscribe` on a new event the id 0 has been returned. -/
theorem runOps_wraps {F : Type} (w : Nat) (tt : FuncType)
    (faults : Faults F)
    (body : F → List Arg → List (Action F)) (cb : F) (n : Nat) (hn : n = 2 ^ w) :
    0 ∈ subscribedIds (runOps w tt faults body (List.replicate n (Op.subscribe cb)) (freshEvent F tt)).trace := by
  have hl := runOps_replicate_length w tt faults body cb n (freshEvent F tt) rfl
  have hpos : 0 < 2 ^ w := Nat.two_pow_pos w
  have hi : n - 1 < (subscribedIds (runOps w tt faults body (List.replicate n (Op.subscribe cb))
      (freshEvent F tt)).trace).length := by omega
  have := runOps_ids w tt faults body (List.replicate n (Op.subscribe cb)) (n - 1) hi
  have h0 : (n - 1 + 1) % 2 ^ w = 0 := by
    have : n - 1 + 1 = 2 ^ w := by omega
    rw [this, Nat.mod_self]
  rw [h0] at this
  exact this ▸ List.getElem_mem _

/-! ## The iteration order is a permutation -/

theorem rangeOrder_nil {α : Type} (order : List Nat) : rangeOrder order ([] : List α) = [] := by
  cases order <;> rfl

theorem insertAt_perm {α : Type} (k : Nat) (x : α) (l : List α) :
    (insertAt k x l).Perm (x :: l) := by
  unfold insertAt
  exact List.perm_middle.trans (by rw [List.take_append_drop])

theorem rangeOrder_perm {α : Type} : ∀ (order : List Nat) (l : List α),
    (rangeOrder order l).Perm l
  | [], [] => List.Perm.refl _
  | _ :: _, [] => List.Perm.refl _
  | [], _ :: _ => List.Perm.refl _
  | k :: ks, x :: xs =>
      (insertAt_perm k x (rangeOrder ks xs)).trans ((rangeOrder_perm ks xs).cons x)

theorem insertAt_length_append {α : Type} (a b : List α) (x : α) :
    insertAt a.length x (a ++ b) = a ++ x :: b := by
  simp [insertAt]

/-- Every order of the entries is picked by some oracle. -/
theorem rangeOrder_surjective {α : Type} : ∀ (l l1 : List α), l1.Perm l →
    ∃ order, rangeOrder order l = l1
  | [], l1, hp => ⟨[], by rw [hp.eq_nil]; rfl⟩
  | x :: xs, l1, hp => by
      have hx : x ∈ l1 := hp.mem_iff.mpr (List.mem_cons_self x xs)
      obtain ⟨a, b, rfl⟩ := List.append_of_mem hx
      have hab : (a ++ b).Perm xs := (List.perm_middle.symm.trans hp).cons_inv
      obtain ⟨ks, hks⟩ := rangeOrder_surjective xs (a ++ b) hab
      exact ⟨a.length :: ks, by rw [rangeOrder, hks, insertAt_length_append]⟩

/-! ## What `Fire` does when the mutex is free -/

theorem runActions_ret {F : Type} (w : Nat) (acts : List (Action F)) :
    ∀ e : Event F, e.subMutex = false →
      (runActions w acts e).outcome = Res.ret () ∧ calls (runActions w acts e).trace = [] := by
  induction acts with
  | nil => intro e _; exact ⟨rfl, rfl⟩
  | cons a rest ih =>
    intro e h
    cases a with
    | subscribe cb =>
      obtain ⟨e1, subId, hs, ht⟩ := Tracks_subscribe w e cb h
      simp only [runActions, hs, Run.after, List.singleton_append, calls]
      exact ih e1 ht.1
    | unsubscribe subId =>
      obtain ⟨e1, err, hs, ht⟩ := Tracks_unsubscribe w e subId h
      simp only [runActions, hs, Run.after, List.singleton_append, calls]
      exact ih e1 ht.1

/-- One round of the loop of `Fire` on an event whose mutex is free. -/
theorem callLoop_cons {F : Type} (w : Nat) (tt : FuncType) (faults : Faults F)
    (body : F → List Arg → List (Action F)) (argVs : List Arg) (fn : ReflectValue F)
    (rest : List (ReflectValue F)) (e : Event F) (h : e.subMutex = false) :
    callLoop w tt faults body argVs (fn :: rest) e =
      if faults.isNil fn.fn then ⟨e, [], Res.panic Panic.nilFunc⟩
      else if callAccepts tt argVs then
        if faults.panics fn.fn argVs then
          ⟨(runActions w (body fn.fn argVs) e).event,
            Ev.call fn argVs false :: (runActions w (body fn.fn argVs) e).trace,
            Res.panic Panic.callback⟩
        else
          (callLoop w tt faults body argVs rest (runActions w (body fn.fn argVs) e).event).after
            (Ev.call fn argVs false :: (runActions w (body fn.fn argVs) e).trace)
      else ⟨e, [], Res.panic Panic.reflectCall⟩ := by
  have hb := runActions_ret w (body fn.fn argVs) e h
  simp only [callLoop, Run.after, hb.1, h, List.singleton_append]

/-- The invocations of the loop of `Fire` when `Call` accepts the arguments:
the callbacks of the snapshot that are reached, in order. -/
theorem callLoop_dispatched {F : Type} (w : Nat) (tt : FuncType) (faults : Faults F)
    (body : F → List Arg → List (Action F)) (argVs : List Arg)
    (hcall : callAccepts tt argVs = true) (toCall : List (ReflectValue F)) :
    ∀ e : Event F, e.subMutex = false →
      calls (callLoop w tt faults body argVs toCall e).trace
        = (dispatched faults argVs toCall).map (fun fn => (fn, argVs, false)) := by
  induction toCall with
  | nil => intro e _; rfl
  | cons fn rest ih =>
    intro e h
    have hb := runActions_ret w (body fn.fn argVs) e h
    have ht := runActions_tracks w (body fn.fn argVs) e h
    have := ih (runActions w (body fn.fn argVs) e).event ht.1
    rw [callLoop_cons w tt faults body argVs fn rest e h]
    simp only [dispatched, hcall, if_true]
    split
    · rfl
    · split
      · simp only [calls, hb.2, List.map_cons, List.map_nil]
      · simp only [Run.after, List.cons_append, List.append_eq, calls, calls_append, hb.2,
          List.nil_append, List.map_cons, this]

/-- A snapshot without a nil func value and without a panicking body is
dispatched as a whole. -/
theorem dispatched_all {F : Type} (faults : Faults F) (argVs : List Arg) :
    ∀ toCall : List (ReflectValue F),
      (∀ fn ∈ toCall, faults.isNil fn.fn = false ∧ faults.panics fn.fn argVs = false) →
      dispatched faults argVs toCall = toCall
  | [], _ => rfl
  | fn :: rest, hf => by
    have h1 := hf fn (List.mem_cons_self fn rest)
    have h2 := dispatched_all faults argVs rest
      (fun g hg => hf g (List.mem_cons_of_mem fn hg))
    simp only [dispatched, h1.1, h1.2, Bool.false_eq_true, if_false, h2]

/-- The callbacks that are dispatched come first in the snapshot, in its
order. -/
theorem dispatched_initial {F : Type} (faults : Faults F) (argVs : List Arg) :
    ∀ toCall : List (ReflectValue F), dispatched faults argVs toCall <+: toCall
  | [] => List.prefix_refl []
  | fn :: rest => by
    simp only [dispatched]
    split
    · exact List.nil_prefix
    · split
      · exact ⟨rest, rfl⟩
      · exact (List.prefix_cons_inj fn).mpr (dispatched_initial faults argVs rest)

theorem callLoop_calls {F : Type} (w : Nat) (tt : FuncType) (faults : Faults F)
    (body : F → List Arg → List (Action F)) (argVs : List Arg)
    (hcall : callAccepts tt argVs = true) (toCall : List (ReflectValue F)) :
    ∀ e : Event F, e.subMutex = false →
      (∀ fn ∈ toCall, faults.isNil fn.fn = false ∧ faults.panics fn.fn argVs = false) →
      (callLoop w tt faults body argVs toCall e).outcome = Res.ret () ∧
      calls (callLoop w tt faults body argVs toCall e).trace
        = toCall.map (fun fn => (fn, argVs, false)) := by
  induction toCall with
  | nil => intro e _ _; exact ⟨rfl, rfl⟩
  | cons fn rest ih =>
    intro e h hf
    have hb := runActions_ret w (body fn.fn argVs) e h
    have ht := runActions_tracks w (body fn.fn argVs) e h
    have h1 := hf fn (List.mem_cons_self fn rest)
    have := ih (runActions w (body fn.fn argVs) e).event ht.1
      (fun g hg => hf g (List.mem_cons_of_mem fn hg))
    rw [callLoop_cons w tt faults body argVs fn rest e h]
    simp only [h1.1, h1.2, hcall, Bool.false_eq_true, if_false, if_true, Run.after,
      List.cons_append, List.append_eq, calls, calls_append, hb.2, List.nil_append,
      List.map_cons]
    exact ⟨this.1, by rw [this.2]⟩

theorem callLoop_rejects {F : Type} (w : Nat) (tt : FuncType) (faults : Faults F)
    (body : F → List Arg → List (Action F)) (argVs : List Arg)
    (hcall : callAccepts tt argVs = false) (toCall : List (ReflectValue F)) (e : Event F) :
    (callLoop w tt faults body argVs toCall e).trace = [] ∧
      (callLoop w tt faults body argVs toCall e).event = e := by
  cases toCall with
  | nil => exact ⟨rfl, rfl⟩
  | cons fn rest =>
    simp only [callLoop, hcall, Bool.false_eq_true, if_false]
    split <;> exact ⟨rfl, rfl⟩

theorem Fire_unlocked {F : Type} (w : Nat) (tt : FuncType)
    (faults : Faults F)
    (body : F → List Arg → List (Action F)) (order : List Nat) (e : Event F) (args : List Arg)
    (h : e.subMutex = false) :
    Fire w tt faults body order e args =
      if args.length ≠ e.argKinds.length then
        ⟨e, [], Res.panic (Panic.paramCount args.length e.argKinds.length)⟩
      else
        match checkKinds args e.argKinds with
        | some p => ⟨e, [], Res.panic p⟩
        | none => callLoop w tt faults body args
            ((rangeOrder order e.subs.entries).map (fun s => s.2.callbackReflect)) e := by
  simp only [Fire, Lock, h, Bool.false_eq_true, if_false, Unlock_Lock e h]

theorem Fire_valid {F : Type} (w : Nat) (tt : FuncType)
    (faults : Faults F)
    (body : F → List Arg → List (Action F)) (order : List Nat) (e : Event F) (args : List Arg)
    (h : e.subMutex = false) (hlen : args.length = e.argKinds.length)
    (hkinds : checkKinds args e.argKinds = none) :
    Fire w tt faults body order e args = callLoop w tt faults body args
      ((rangeOrder order e.subs.entries).map (fun s => s.2.callbackReflect)) e := by
  rw [Fire_unlocked w tt faults body order e args h]
  simp [hlen, hkinds]

/-- A run started on a new event ends on an event with a free mutex whose
`argKinds` are the kinds of the parameters of `F`. -/
theorem reachable_inv {F : Type} (w : Nat) (tt : FuncType)
    (faults : Faults F)
    (body : F → List Arg → List (Action F)) (ops : List (Op F)) (e0 : Event F)
    (hnew : NewEvent tt = Res.ret e0) :
    (runOps w tt faults body ops e0).event.subMutex = false ∧
    (runOps w tt faults body ops e0).event.argKinds = tt.ins.map GoType.kind := by
  have he := NewEvent_eq tt e0 hnew
  subst he
  have ht := runOps_tracks w tt faults body ops (freshEvent F tt) rfl
  exact ⟨ht.1, ht.2.2.1⟩

theorem checkKinds_mismatch : ∀ (args : List Arg) (kinds : List Kind) (i : Nat)
    (h1 : i < args.length) (h2 : i < kinds.length),
    kinds[i] ≠ Kind.Interface → (args[i]).Kind ≠ kinds[i] →
    ∃ got want, want ≠ Kind.Interface ∧ got ≠ want ∧
      checkKinds args kinds = some (Panic.invalidArgKind got want)
  | [], _, i, h1, _, _, _ => absurd h1 (Nat.not_lt_zero i)
  | _ :: _, [], i, _, h2, _, _ => absurd h2 (Nat.not_lt_zero i)
  | a :: as, k :: ks, 0, _, _, hk, ha => by
      simp only [List.getElem_cons_zero] at hk ha
      exact ⟨a.Kind, k, hk, ha, by simp [checkKinds, hk, ha]⟩
  | a :: as, k :: ks, i + 1, h1, h2, hk, ha => by
      simp only [List.getElem_cons_succ] at hk ha
      obtain ⟨got, want, hw, hg, hc⟩ := checkKinds_mismatch as ks i
        (Nat.lt_of_succ_lt_succ h1) (Nat.lt_of_succ_lt_succ h2) hk ha
      by_cases hki : k = Kind.Interface
      · exact ⟨got, want, hw, hg, by simp [checkKinds, hki, hc]⟩
      · by_cases hak : a.Kind = k
        · exact ⟨got, want, hw, hg, by simp [checkKinds, hki, hak, hc]⟩
        · exact ⟨a.Kind, k, hki, hak, by simp [checkKinds, hki, hak]⟩

/-! ## The map and the history -/

theorem lookup_applyStep {F : Type} (subId : SubscriptionId)
    (m : AList (fun _ : SubscriptionId => trackedSub F)) (ev : Ev F) :
    ((applyStep m ev).lookup subId).isSome = liveStep subId (m.lookup subId).isSome ev := by
  cases ev with
  | call fn argVs held => rfl
  | subscribed cb i =>
    by_cases h : i = subId
    · subst h; simp [applyStep, liveStep, AList.lookup_insert]
    · simp [applyStep, liveStep, h, AList.lookup_insert_ne (Ne.symm h)]
  | unsubscribed i err =>
    cases err with
    | some _ => rfl
    | none =>
      by_cases h : i = subId
      · subst h; simp [applyStep, liveStep, AList.lookup_erase]
      · simp [applyStep, liveStep, h, AList.lookup_erase_ne (Ne.symm h)]

theorem lookup_replay {F : Type} (subId : SubscriptionId) : ∀ (trace : List (Ev F))
    (m : AList (fun _ : SubscriptionId => trackedSub F)),
    ((replay trace m).lookup subId).isSome = live subId trace (m.lookup subId).isSome
  | [], _ => rfl
  | ev :: t, m => by
      simp only [replay, live, List.foldl_cons]
      rw [← lookup_applyStep]
      exact lookup_replay subId t (applyStep m ev)

/-- On an event whose mutex is free, `Unsubscribe(subId)` returns, with an
error exactly when `subId` is not a key of `subs`; after a nil result the key
is gone and a second `Unsubscribe(subId)` returns an error. -/
theorem Unsubscribe_error_iff {F : Type} (e : Event F) (subId : SubscriptionId)
    (h : e.subMutex = false) :
    ∃ e1 err, Unsubscribe e subId = Res.ret (e1, err) ∧
      (err ≠ none ↔ e.subs.lookup subId = none) ∧
      (err = none → e1.subs.lookup subId = none ∧
        ∃ e2 err2, Unsubscribe e1 subId = Res.ret (e2, some err2)) := by
  rw [Unsubscribe_unlocked e subId h]
  cases hl : e.subs.lookup subId with
  | none => exact ⟨e, _, rfl, by simp, by simp⟩
  | some s =>
    refine ⟨_, none, rfl, by simp, fun _ => ⟨AList.lookup_erase subId e.subs, ?_⟩⟩
    rw [Unsubscribe_unlocked { e with subs := e.subs.erase subId } subId h]
    simp only [AList.lookup_erase]
    exact ⟨_, _, rfl⟩

/-! ## The counter and the keys of the map -/

/-- A counter that stands at `a` and hands out `ids` ends at `a` plus their
number, modulo `2 ^ w`. -/
theorem chain_endId (w : Nat) : ∀ (ids : List Nat) (a : Nat), chain w a ids → a < 2 ^ w →
    endId a ids = (a + ids.length) % 2 ^ w
  | [], a, _, ha => (Nat.mod_eq_of_lt ha).symm
  | x :: xs, a, hc, _ => by
      have hx : x < 2 ^ w := by rw [hc.1]; exact Nat.mod_lt _ (Nat.two_pow_pos w)
      rw [endId, chain_endId w xs x hc.2 hx, hc.1, Nat.mod_add_mod, List.length_cons]
      congr 1
      omega

/-- An entry of the map after a trace was in the map before, or was stored by a
`Subscribe` of the trace under the id that call returned. -/
theorem lookup_replay_some {F : Type} (k : SubscriptionId) (s : trackedSub F) :
    ∀ (trace : List (Ev F)) (m : AList (fun _ : SubscriptionId => trackedSub F)),
    (replay trace m).lookup k = some s →
    m.lookup k = some s ∨
      (k ∈ subscribedIds trace ∧ s.subId = k ∧ s.callbackReflect = ValueOf s.callback)
  | [], _, h => Or.inl h
  | ev :: t, m, h => by
      have ih := lookup_replay_some k s t (applyStep m ev) h
      cases ev with
      | call fn argVs held =>
        rcases ih with h1 | ⟨h1, h2⟩
        · exact Or.inl h1
        · exact Or.inr ⟨h1, h2⟩
      | subscribed cb i =>
        rcases ih with h1 | ⟨h1, h2⟩
        · by_cases hki : k = i
          · subst hki
            simp only [applyStep, AList.lookup_insert, Option.some.injEq] at h1
            subst h1
            exact Or.inr ⟨List.mem_cons_self _ _, rfl, rfl⟩
          · simp only [applyStep, AList.lookup_insert_ne hki] at h1
            exact Or.inl h1
        · exact Or.inr ⟨List.mem_cons_of_mem _ h1, h2⟩
      | unsubscribed i err =>
        cases err with
        | some e1 =>
          rcases ih with h1 | ⟨h1, h2⟩
          · exact Or.inl h1
          · exact Or.inr ⟨h1, h2⟩
        | none =>
          rcases ih with h1 | ⟨h1, h2⟩
          · by_cases hki : k = i
            · subst hki
              simp [applyStep, AList.lookup_erase] at h1
            · simp only [applyStep, AList.lookup_erase_ne hki] at h1
              exact Or.inl h1
          · exact Or.inr ⟨h1, h2⟩

/-- Storing an entry under a key that is not in the map and deleting the key
again gives the map back. -/
theorem erase_insert_of_not_mem {F : Type} (k : SubscriptionId) (v : trackedSub F)
    (m : AList (fun _ : SubscriptionId => trackedSub F)) (h : m.lookup k = none) :
    (m.insert k v).erase k = m := by
  have hk : k ∉ m := AList.lookup_eq_none.mp h
  apply AList.ext
  show List.kerase k (m.insert k v).entries = m.entries
  rw [AList.insert_entries_of_neg hk]
  exact List.kerase_cons_eq rfl

/-- From a new event, while `Subscribe` was called fewer than `2 ^ w` times, the
ids returned are `1, 2, ..., k`. -/
theorem runOps_ids_range {F : Type} (w : Nat) (tt : FuncType)
    (faults : Faults F)
    (body : F → List Arg → List (Action F)) (ops : List (Op F))
    (hk : (subscribedIds (runOps w tt faults body ops (freshEvent F tt)).trace).length < 2 ^ w) :
    subscribedIds (runOps w tt faults body ops (freshEvent F tt)).trace
      = List.range' 1 (subscribedIds (runOps w tt faults body ops (freshEvent F tt)).trace).length := by
  apply List.ext_getElem
  · simp
  · intro i h1 h2
    rw [runOps_ids w tt faults body ops i h1, List.getElem_range']
    rw [Nat.mod_eq_of_lt (show i + 1 < 2 ^ w by omega), Nat.one_mul, Nat.add_comm]

/-- From a new event, while `Subscribe` was called fewer than `2 ^ w` times,
`lastSubId` is the number of calls of `Subscribe`, and every key of the map lies
between 1 and `lastSubId` and holds the entry `Subscribe` stored under it. -/
theorem reachable_counter {F : Type} (w : Nat) (tt : FuncType)
    (faults : Faults F)
    (body : F → List Arg → List (Action F)) (ops : List (Op F))
    (hk : (subscribedIds (runOps w tt faults body ops (freshEvent F tt)).trace).length < 2 ^ w) :
    (runOps w tt faults body ops (freshEvent F tt)).event.lastSubId
      = (subscribedIds (runOps w tt faults body ops (freshEvent F tt)).trace).length ∧
    ∀ k s, (runOps w tt faults body ops (freshEvent F tt)).event.subs.lookup k = some s →
      1 ≤ k ∧ k ≤ (runOps w tt faults body ops (freshEvent F tt)).event.lastSubId ∧ s.subId = k ∧
        s.callbackReflect = ValueOf s.callback := by
  have ht := runOps_tracks w tt faults body ops (freshEvent F tt) rfl
  have hlast : (runOps w tt faults body ops (freshEvent F tt)).event.lastSubId
      = (subscribedIds (runOps w tt faults body ops (freshEvent F tt)).trace).length := by
    rw [ht.2.2.2.2.1, chain_endId w _ _ ht.2.2.2.1 (Nat.two_pow_pos w)]
    show (0 + _) % 2 ^ w = _
    rw [Nat.zero_add, Nat.mod_eq_of_lt hk]
  refine ⟨hlast, fun k s hs => ?_⟩
  rw [ht.2.2.2.2.2] at hs
  rcases lookup_replay_some k s _ _ hs with h0 | ⟨hmem, hsub, hrefl⟩
  · simp [freshEvent] at h0
  · rw [runOps_ids_range w tt faults body ops hk, List.mem_range'_1] at hmem
    rw [hlast]
    exact ⟨hmem.1, Nat.lt_succ_iff.mp (by rw [Nat.succ_eq_add_one, Nat.add_comm]; exact hmem.2), hsub, hrefl⟩

/-! ## The invocations of `Fire` -/

/-- The invocations of `Fire` on an event whose mutex is free: those of the
snapshot that are reached when the arguments are valid and accepted, none
otherwise. -/
theorem Fire_calls {F : Type} (w : Nat) (tt : FuncType) (faults : Faults F)
    (body : F → List Arg → List (Action F)) (order : List Nat) (e : Event F) (args : List Arg)
    (h : e.subMutex = false) :
    calls (Fire w tt faults body order e args).trace =
      if args.length = e.argKinds.length ∧ checkKinds args e.argKinds = none ∧
          callAccepts tt args = true then
        (dispatched faults args
          ((rangeOrder order e.subs.entries).map (fun s => s.2.callbackReflect))).map
          (fun fn => (fn, args, false))
      else [] := by
  by_cases hv : args.length = e.argKinds.length ∧ checkKinds args e.argKinds = none ∧
      callAccepts tt args = true
  · rw [if_pos hv, Fire_valid w tt faults body order e args h hv.1 hv.2.1,
      callLoop_dispatched w tt faults body args hv.2.2 _ e h]
  · rw [if_neg hv, Fire_unlocked w tt faults body order e args h]
    by_cases hlen : args.length = e.argKinds.length
    · rw [if_neg (not_not.mpr hlen)]
      cases hkinds : checkKinds args e.argKinds with
      | some p => rfl
      | none =>
        have hcall : callAccepts tt args = false := by
          cases hc : callAccepts tt args with
          | false => rfl
          | true => exact absurd ⟨hlen, hkinds, hc⟩ hv
        simp only
        rw [(callLoop_rejects w tt faults body args hcall _ e).1]
        rfl
    · rw [if_pos hlen]
      rfl

/-- Events with the same map and the same `argKinds` get the same invocations. -/
theorem Fire_calls_congr {F : Type} (w : Nat) (tt : FuncType)
    (faults : Faults F)
    (body : F → List Arg → List (Action F)) (order : List Nat) (e1 e2 : Event F)
    (args : List Arg) (h1 : e1.subMutex = false) (h2 : e2.subMutex = false)
    (hs : e1.subs = e2.subs) (ha : e1.argKinds = e2.argKinds) :
    calls (Fire w tt faults body order e1 args).trace = calls (Fire w tt faults body order e2 args).trace := by
  rw [Fire_calls w tt faults body order e1 args h1, Fire_calls w tt faults body order e2 args h2, hs, ha]

/-- Every invocation of `Fire` is made with the mutex free. -/
theorem Fire_calls_free {F : Type} (w : Nat) (tt : FuncType)
    (faults : Faults F)
    (body : F → List Arg → List (Action F)) (order : List Nat) (e : Event F) (args : List Arg) :
    ∀ c ∈ calls (Fire w tt faults body order e args).trace, c.2.2 = false := by
  intro c hc
  cases hm : e.subMutex with
  | true => simp [Fire, Lock, hm, calls] at hc
  | false =>
    rw [Fire_calls w tt faults body order e args hm] at hc
    split at hc
    · obtain ⟨s, _, rfl⟩ := List.mem_map.mp hc
      rfl
    · simp at hc

/-! ## Runs of consecutive calls -/

/-- A run of two sequences of calls is the run of the second on the event the
first one leaves. -/
theorem runOps_append {F : Type} (w : Nat) (tt : FuncType)
    (faults : Faults F)
    (body : F → List Arg → List (Action F)) (ops2 : List (Op F)) :
    ∀ (ops1 : List (Op F)) (e : Event F), e.subMutex = false →
      runOps w tt faults body (ops1 ++ ops2) e
        = (runOps w tt faults body ops2 (runOps w tt faults body ops1 e).event).after
            (runOps w tt faults body ops1 e).trace := by
  intro ops1
  induction ops1 with
  | nil => intro e _; simp [runOps, Run.after]
  | cons op rest ih =>
    intro e h
    cases op with
    | subscribe cb =>
      obtain ⟨e1, subId, hs, ht⟩ := Tracks_subscribe w e cb h
      simp only [List.cons_append, runOps, hs, List.append_eq]
      rw [ih e1 ht.1]
      simp [Run.after]
    | unsubscribe subId =>
      obtain ⟨e1, err, hs, ht⟩ := Tracks_unsubscribe w e subId h
      simp only [List.cons_append, runOps, hs, List.append_eq]
      rw [ih e1 ht.1]
      simp [Run.after]
    | fire order args =>
      have hf := Fire_tracks w tt faults body order e args h
      have hb : ∀ (X : Run F), (match (Fire w tt faults body order e args).outcome with
          | Res.blocked => Fire w tt faults body order e args
          | _ => X) = X := by
        intro X
        split
        · exact absurd ‹_› hf.2.1
        · rfl
      simp only [List.cons_append, runOps, hb, List.append_eq]
      rw [ih _ hf.1]
      simp [Run.after]

/-- Calls of `Subscribe` remove no key. -/
theorem replicate_keeps {F : Type} (w : Nat) (tt : FuncType)
    (faults : Faults F)
    (body : F → List Arg → List (Action F)) (cb : F) (k : SubscriptionId) :
    ∀ (n : Nat) (e : Event F), e.subMutex = false → (e.subs.lookup k).isSome = true →
      ((runOps w tt faults body (List.replicate n (Op.subscribe cb)) e).event.subs.lookup k).isSome
        = true
  | 0, _, _, hk => hk
  | n + 1, e, h, hk => by
      obtain ⟨e1, subId, hs, ht⟩ := Tracks_subscribe w e cb h
      have hs2 := Subscribe_unlocked w e cb h
      rw [hs] at hs2
      injection hs2 with hs2
      injection hs2 with he1 _
      simp only [List.replicate_succ, runOps, hs, Run.after]
      apply replicate_keeps w tt faults body cb k n e1 ht.1
      rw [he1]
      by_cases hki : k = (e.lastSubId + 1) % 2 ^ w
      · rw [hki]; simp [AList.lookup_insert]
      · simp only [AList.lookup_insert_ne hki]; exact hk

theorem wrapped_unlocked (w : Nat) : (wrapped w).subMutex = false :=
  (runOps_tracks w funcNone (noFaults Unit) (noActions Unit) _ (freshEvent Unit funcNone) rfl).1

/-- After `2 ^ w` calls of `Subscribe` the counter `lastSubId` is back at 0. -/
theorem wrapped_lastSubId (w : Nat) : (wrapped w).lastSubId = 0 := by
  have ht := runOps_tracks w funcNone (noFaults Unit) (noActions Unit)
    (List.replicate (2 ^ w) (Op.subscribe ())) (freshEvent Unit funcNone) rfl
  have hl := runOps_replicate_length w funcNone (noFaults Unit) (noActions Unit) () (2 ^ w)
    (freshEvent Unit funcNone) rfl
  unfold wrapped
  rw [ht.2.2.2.2.1, chain_endId w _ _ ht.2.2.2.1 (Nat.two_pow_pos w), hl]
  show (0 + 2 ^ w) % 2 ^ w = 0
  rw [Nat.zero_add, Nat.mod_self]

/-- After `2 ^ w` calls of `Subscribe` the id 1 is still registered. -/
theorem wrapped_has_one (w : Nat) (hw : 1 < 2 ^ w) :
    ((wrapped w).subs.lookup 1).isSome = true := by
  obtain ⟨n, hn⟩ : ∃ n, 2 ^ w = n + 1 := ⟨2 ^ w - 1, by omega⟩
  unfold wrapped
  rw [hn]
  obtain ⟨e1, subId, hs, ht⟩ := Tracks_subscribe w (freshEvent Unit funcNone) () rfl
  have hs2 := Subscribe_unlocked w (freshEvent Unit funcNone) () rfl
  rw [hs] at hs2
  injection hs2 with hs2
  injection hs2 with he1 _
  simp only [List.replicate_succ, runOps, hs, Run.after]
  apply replicate_keeps w funcNone (noFaults Unit) (noActions Unit) () 1 n e1 ht.1
  rw [he1]
  have h1 : ((freshEvent Unit funcNone).lastSubId + 1) % 2 ^ w = 1 := by
    show (0 + 1) % 2 ^ w = 1
    rw [Nat.zero_add, Nat.mod_eq_of_lt hw]
  simp [h1, AList.lookup_insert]

/-- On the event after `2 ^ w` subscriptions, `Subscribe` returns the id 1,
which is registered already, and `Unsubscribe(1)` then removes it. -/
theorem wrapped_subscribe_unsubscribe (w : Nat) (hw : 1 < 2 ^ w) :
    (runOps w funcNone (noFaults Unit) (noActions Unit) [Op.subscribe (), Op.unsubscribe 1] (wrapped w)).trace
      = [Ev.subscribed () 1, Ev.unsubscribed 1 none] ∧
    ((runOps w funcNone (noFaults Unit) (noActions Unit) [Op.subscribe (), Op.unsubscribe 1]
      (wrapped w)).event.subs.lookup 1).isSome = false := by
  have h1 : ((wrapped w).lastSubId + 1) % 2 ^ w = 1 := by
    rw [wrapped_lastSubId, Nat.zero_add, Nat.mod_eq_of_lt hw]
  simp only [runOps, Subscribe_unlocked w (wrapped w) () (wrapped_unlocked w), h1]
  rw [Unsubscribe_unlocked _ 1 rfl]
  simp [AList.lookup_insert, AList.lookup_erase, Run.after]

/-- On the event after `2 ^ w` subscriptions, `Unsubscribe(1)` returns nil and
the next `Subscribe` returns the id 1 that was just freed. -/
theorem wrapped_unsubscribe_subscribe (w : Nat) (hw : 1 < 2 ^ w) :
    (runOps w funcNone (noFaults Unit) (noActions Unit) [Op.unsubscribe 1, Op.subscribe ()] (wrapped w)).trace
      = [Ev.unsubscribed 1 none, Ev.subscribed () 1] := by
  have h1 : ((wrapped w).lastSubId + 1) % 2 ^ w = 1 := by
    rw [wrapped_lastSubId, Nat.zero_add, Nat.mod_eq_of_lt hw]
  have hk := wrapped_has_one w hw
  obtain ⟨s, hs⟩ := Option.isSome_iff_exists.mp hk
  simp only [runOps, Unsubscribe_unlocked (wrapped w) 1 (wrapped_unlocked w), hs]
  rw [Subscribe_unlocked w { wrapped w with subs := (wrapped w).subs.erase 1 } ()
    (wrapped_unlocked w)]
  simp [Run.after, h1]

end subscribableevent

namespace subscribableevent

/-! ## Claims -/

/-- C1, as amended.  On an event created by `NewEvent`, for every sequence of
`Subscribe`, `Unsubscribe` and `Fire` calls (with callbacks that themselves
subscribe and unsubscribe, and whatever the order of iteration) in which
`Subscribe` is called fewer than `2 ^ uintSize` times, no call blocks, and the
n-th call of `Subscribe` returns n: the returned ids are `1, 2, ..., k` in this
order, so 0 is not returned and every id is greater than all earlier ones. -/
theorem C1_subscribe_ids {F : Type} (uintSize : Nat) (tt : FuncType)
    (faults : Faults F)
    (body : F → List Arg → List (Action F)) (ops : List (Op F)) (e : Event F)
    (hnew : NewEvent tt = Res.ret e)
    (hk : (subscribedIds (runOps uintSize tt faults body ops e).trace).length < 2 ^ uintSize) :
    (runOps uintSize tt faults body ops e).outcome ≠ Res.blocked ∧
    subscribedIds (runOps uintSize tt faults body ops e).trace
      = List.range' 1 (subscribedIds (runOps uintSize tt faults body ops e).trace).length ∧
    0 ∉ subscribedIds (runOps uintSize tt faults body ops e).trace ∧
    (subscribedIds (runOps uintSize tt faults body ops e).trace).Pairwise (fun a b => a < b) := by
  have he := NewEvent_eq tt e hnew
  subst he
  have ht := runOps_tracks uintSize tt faults body ops (freshEvent F tt) rfl
  have hids : subscribedIds (runOps uintSize tt faults body ops (freshEvent F tt)).trace
      = List.range' 1 (subscribedIds (runOps uintSize tt faults body ops (freshEvent F tt)).trace).length := by
    apply List.ext_getElem
    · simp
    · intro i h1 h2
      rw [runOps_ids uintSize tt faults body ops i h1, List.getElem_range']
      rw [Nat.mod_eq_of_lt (show i + 1 < 2 ^ uintSize by omega), Nat.one_mul, Nat.add_comm]
  refine ⟨ht.2.1, hids, ?_, ?_⟩
  · rw [hids]; simp only [List.mem_range', not_exists, not_and]; intro x _; omega
  · rw [hids]; exact List.pairwise_lt_range' _ _

/-- C1, witness: four subscriptions, one of them made by a callback during
`Fire`, receive the ids 1, 2, 3, 4. -/
theorem C1_subscribe_ids_witness :
    NewEvent funcIntString = Res.ret (freshEvent Nat funcIntString) ∧
    (subscribedIds (runOps 64 funcIntString (noFaults Nat) exampleBody exampleOps
      (freshEvent Nat funcIntString)).trace).length < 2 ^ 64 ∧
    ((runOps 64 funcIntString (noFaults Nat) exampleBody exampleOps (freshEvent Nat funcIntString)).outcome
      ≠ Res.blocked ∧
    subscribedIds (runOps 64 funcIntString (noFaults Nat) exampleBody exampleOps
        (freshEvent Nat funcIntString)).trace
      = List.range' 1 (subscribedIds (runOps 64 funcIntString (noFaults Nat) exampleBody exampleOps
        (freshEvent Nat funcIntString)).trace).length ∧
    0 ∉ subscribedIds (runOps 64 funcIntString (noFaults Nat) exampleBody exampleOps
      (freshEvent Nat funcIntString)).trace ∧
    (subscribedIds (runOps 64 funcIntString (noFaults Nat) exampleBody exampleOps
      (freshEvent Nat funcIntString)).trace).Pairwise (fun a b => a < b)) :=
  ⟨rfl, by decide,
    C1_subscribe_ids 64 funcIntString (noFaults Nat) exampleBody exampleOps (freshEvent Nat funcIntString) rfl
      (by decide)⟩

/-- C1, counterexample to the claim as stated: `uint` wraps around, so on a new
event the `2 ^ uintSize`-th call of `Subscribe` returns the id 0, for a 32-bit
and for a 64-bit `uint`. -/
theorem C1_id_zero_returned :
    NewEvent funcNone = Res.ret (freshEvent Unit funcNone) ∧
    0 ∈ subscribedIds (runOps 32 funcNone (noFaults Unit) (fun _ _ => [])
      (List.replicate (2 ^ 32) (Op.subscribe ())) (freshEvent Unit funcNone)).trace ∧
    0 ∈ subscribedIds (runOps 64 funcNone (noFaults Unit) (fun _ _ => [])
      (List.replicate (2 ^ 64) (Op.subscribe ())) (freshEvent Unit funcNone)).trace :=
  ⟨rfl, runOps_wraps 32 funcNone _ _ () (2 ^ 32) rfl,
    runOps_wraps 64 funcNone _ _ () (2 ^ 64) rfl⟩

/-- C2.  On every event reached from `NewEvent` by a sequence of calls, for
every id, `Unsubscribe(subId)` returns, and it returns a non-nil error exactly
when `subId` is not registered, that is, not a key of `subs`; and `subId` is not
a key of `subs` exactly when no `Subscribe` returned it or, since the last one
that did, an `Unsubscribe(subId)` returned nil.  When `Unsubscribe(subId)`
returns nil, `subId` is no longer a key afterwards and a second
`Unsubscribe(subId)` returns an error. -/
theorem C2_unsubscribe_error_iff {F : Type} (uintSize : Nat) (tt : FuncType)
    (faults : Faults F)
    (body : F → List Arg → List (Action F)) (ops : List (Op F)) (e0 : Event F)
    (subId : SubscriptionId) (hnew : NewEvent tt = Res.ret e0) :
    ∃ e1 err, Unsubscribe (runOps uintSize tt faults body ops e0).event subId = Res.ret (e1, err) ∧
      (err ≠ none ↔ (runOps uintSize tt faults body ops e0).event.subs.lookup subId = none) ∧
      ((runOps uintSize tt faults body ops e0).event.subs.lookup subId = none ↔
        live subId (runOps uintSize tt faults body ops e0).trace false = false) ∧
      (err = none → e1.subs.lookup subId = none ∧
        ∃ e2 err2, Unsubscribe e1 subId = Res.ret (e2, some err2)) := by
  have he := NewEvent_eq tt e0 hnew
  subst he
  have ht := runOps_tracks uintSize tt faults body ops (freshEvent F tt) rfl
  obtain ⟨e1, err, h1, h2, h3⟩ := Unsubscribe_error_iff _ subId ht.1
  refine ⟨e1, err, h1, h2, ?_, h3⟩
  have hl := lookup_replay subId (runOps uintSize tt faults body ops (freshEvent F tt)).trace
    (freshEvent F tt).subs
  rw [← ht.2.2.2.2.2] at hl
  rw [← Option.not_isSome_iff_eq_none, hl]
  simp [freshEvent]

/-- C2, witness: after the calls of `exampleOps` the ids 1 and 2 were returned
and removed again, and 3 and 4 are registered; `Unsubscribe(3)` returns nil. -/
theorem C2_unsubscribe_error_iff_witness :
    NewEvent funcIntString = Res.ret (freshEvent Nat funcIntString) ∧
    (∃ e1 err,
      Unsubscribe (runOps 64 funcIntString (noFaults Nat) exampleBody exampleOps
        (freshEvent Nat funcIntString)).event 3 = Res.ret (e1, err) ∧
      (err ≠ none ↔ (runOps 64 funcIntString (noFaults Nat) exampleBody exampleOps
        (freshEvent Nat funcIntString)).event.subs.lookup 3 = none) ∧
      ((runOps 64 funcIntString (noFaults Nat) exampleBody exampleOps
          (freshEvent Nat funcIntString)).event.subs.lookup 3 = none ↔
        live 3 (runOps 64 funcIntString (noFaults Nat) exampleBody exampleOps
          (freshEvent Nat funcIntString)).trace false = false) ∧
      (err = none → e1.subs.lookup 3 = none ∧
        ∃ e2 err2, Unsubscribe e1 3 = Res.ret (e2, some err2))) ∧
    (runOps 64 funcIntString (noFaults Nat) exampleBody exampleOps
      (freshEvent Nat funcIntString)).event.subs.keys = [4, 3] :=
  ⟨rfl, C2_unsubscribe_error_iff 64 funcIntString (noFaults Nat) exampleBody exampleOps
      (freshEvent Nat funcIntString) 3 rfl, by decide⟩

/-- C3, as amended.  On an event whose mutex is free and whose registered
callbacks are non-nil func values with bodies that return on the given
arguments, when the arguments pass the validation of `Fire` (their number is
`len(e.argKinds)` and the kind check finds no mismatch) and are accepted by
`reflect.Value.Call` (none is nil and each is assignable to its parameter),
`Fire` returns and the invocations it made are, up to order, one per entry of
`subs` at the moment of the call, each of the entry's `callbackReflect` with the
given arguments and with the mutex free; where `callbackReflect` is
`reflect.ValueOf(callback)`, as `Subscribe` stores it, these are the registered
callbacks. -/
theorem C3_fire_invokes_registered {F : Type} (uintSize : Nat) (tt : FuncType)
    (faults : Faults F)
    (body : F → List Arg → List (Action F)) (order : List Nat) (e : Event F) (args : List Arg)
    (h : e.subMutex = false) (hlen : args.length = e.argKinds.length)
    (hkinds : checkKinds args e.argKinds = none) (hcall : callAccepts tt args = true)
    (hfn : ∀ s ∈ e.subs.entries, faults.isNil s.2.callbackReflect.fn = false ∧
      faults.panics s.2.callbackReflect.fn args = false) :
    (Fire uintSize tt faults body order e args).outcome = Res.ret () ∧
    (calls (Fire uintSize tt faults body order e args).trace).Perm
      (e.subs.entries.map (fun s => (s.2.callbackReflect, args, false))) ∧
    ((∀ s ∈ e.subs.entries, s.2.callbackReflect = ValueOf s.2.callback) →
      (calls (Fire uintSize tt faults body order e args).trace).Perm
        (e.subs.entries.map (fun s => (ValueOf s.2.callback, args, false)))) := by
  rw [Fire_valid uintSize tt faults body order e args h hlen hkinds]
  have hsnap : ∀ fn ∈ (rangeOrder order e.subs.entries).map (fun s => s.2.callbackReflect),
      faults.isNil fn.fn = false ∧ faults.panics fn.fn args = false := by
    intro fn hmem
    obtain ⟨s, hs, rfl⟩ := List.mem_map.mp hmem
    exact hfn s ((rangeOrder_perm order e.subs.entries).mem_iff.mp hs)
  obtain ⟨ho, hc⟩ := callLoop_calls uintSize tt faults body args hcall
    ((rangeOrder order e.subs.entries).map (fun s => s.2.callbackReflect)) e h hsnap
  have hp : (calls (callLoop uintSize tt faults body args
      ((rangeOrder order e.subs.entries).map (fun s => s.2.callbackReflect)) e).trace).Perm
      (e.subs.entries.map (fun s => (s.2.callbackReflect, args, false))) := by
    rw [hc, List.map_map]
    exact (rangeOrder_perm order e.subs.entries).map _
  refine ⟨ho, hp, fun hinv => ?_⟩
  have : e.subs.entries.map (fun s => (s.2.callbackReflect, args, false))
      = e.subs.entries.map (fun s => (ValueOf s.2.callback, args, false)) :=
    List.map_congr_left (fun s hs => by rw [hinv s hs])
  exact this ▸ hp

/-- C3, witness: `Fire(1, "a")` on an `Event[func(int, string)]` with three
subscriptions.  Also `Fire(IntSlice{1})` on an `Event[func([]int)]` invokes the
registered callback: `IntSlice` is assignable to the type literal `[]int`. -/
theorem C3_fire_invokes_registered_witness :
    threeSubscribers.subMutex = false ∧
    exampleArgs.length = threeSubscribers.argKinds.length ∧
    checkKinds exampleArgs threeSubscribers.argKinds = none ∧
    callAccepts funcIntString exampleArgs = true ∧
    ((Fire 64 funcIntString (noFaults Nat) exampleBody [2, 0] threeSubscribers exampleArgs).outcome
      = Res.ret () ∧
    (calls (Fire 64 funcIntString (noFaults Nat) exampleBody [2, 0] threeSubscribers
      exampleArgs).trace).Perm
      (threeSubscribers.subs.entries.map (fun s => (s.2.callbackReflect, exampleArgs, false))) ∧
    ((∀ s ∈ threeSubscribers.subs.entries, s.2.callbackReflect = ValueOf s.2.callback) →
      (calls (Fire 64 funcIntString (noFaults Nat) exampleBody [2, 0] threeSubscribers
        exampleArgs).trace).Perm
        (threeSubscribers.subs.entries.map
          (fun s => (ValueOf s.2.callback, exampleArgs, false))))) ∧
    sliceSubscriber.subs.keys = [1] ∧
    checkKinds [Arg.val tIntSlice 1] sliceSubscriber.argKinds = none ∧
    callAccepts funcSliceInt [Arg.val tIntSlice 1] = true ∧
    (Fire 64 funcSliceInt (noFaults Nat) (noActions Nat) [] sliceSubscriber
      [Arg.val tIntSlice 1]).outcome = Res.ret () ∧
    calls (Fire 64 funcSliceInt (noFaults Nat) (noActions Nat) [] sliceSubscriber
      [Arg.val tIntSlice 1]).trace = [(⟨5⟩, [Arg.val tIntSlice 1], false)] :=
  ⟨rfl, by decide, by decide, by decide,
    C3_fire_invokes_registered 64 funcIntString (noFaults Nat) exampleBody [2, 0]
      threeSubscribers exampleArgs rfl (by decide) (by decide) (by decide)
      (fun _ _ => ⟨rfl, rfl⟩),
    by decide, by decide, by decide, by decide, by decide⟩

/-- C3, counterexample to the claim as stated: on an `Event[func(int)]` with one
subscription, whose callback is a non-nil func value with a body that returns,
`Fire(MyInt(7))` passes the validation of `Fire`, because `MyInt` has kind
`Int`, yet `reflect.Value.Call` panics because `MyInt` is not assignable to
`int` (both are named types), and the registered callback is not invoked. -/
theorem C3_validated_but_not_invoked :
    oneSubscriber.subMutex = false ∧ oneSubscriber.subs.keys = [1] ∧
    [Arg.val tMyInt 7].length = oneSubscriber.argKinds.length ∧
    checkKinds [Arg.val tMyInt 7] oneSubscriber.argKinds = none ∧
    (Fire 64 funcInt (noFaults Nat) (noActions Nat) [] oneSubscriber [Arg.val tMyInt 7]).outcome
      = Res.panic Panic.reflectCall ∧
    calls (Fire 64 funcInt (noFaults Nat) (noActions Nat) [] oneSubscriber
      [Arg.val tMyInt 7]).trace = [] := by
  decide

/-- C6.  On every event reached from `NewEvent[F]` by a sequence of calls, so
also one with registered callbacks, `Fire` with a number of arguments other than
the number of parameters of `F` panics with the parameter-count panic, takes no
step (no callback is invoked) and leaves the event as it was. -/
theorem C6_fire_wrong_arity {F : Type} (uintSize : Nat) (tt : FuncType)
    (faults : Faults F)
    (body : F → List Arg → List (Action F)) (ops : List (Op F)) (e0 : Event F)
    (order : List Nat) (args : List Arg)
    (hnew : NewEvent tt = Res.ret e0) (hn : args.length ≠ tt.NumIn) :
    (Fire uintSize tt faults body order (runOps uintSize tt faults body ops e0).event args).outcome
      = Res.panic (Panic.paramCount args.length tt.NumIn) ∧
    (Fire uintSize tt faults body order (runOps uintSize tt faults body ops e0).event args).trace = [] ∧
    (Fire uintSize tt faults body order (runOps uintSize tt faults body ops e0).event args).event
      = (runOps uintSize tt faults body ops e0).event := by
  obtain ⟨hm, hk⟩ := reachable_inv uintSize tt faults body ops e0 hnew
  have hl : (runOps uintSize tt faults body ops e0).event.argKinds.length = tt.NumIn := by
    rw [hk, List.length_map]; rfl
  rw [Fire_unlocked uintSize tt faults body order _ args hm, hl, if_pos hn]
  exact ⟨rfl, rfl, rfl⟩

/-- C6, witness: for `F = func(int, string)` and an event with registered
callbacks, `Fire(1)` is rejected with the parameter-count panic before any
callback runs, while `Fire(1, "a")` returns after invoking callbacks. -/
theorem C6_fire_wrong_arity_witness :
    NewEvent funcIntString = Res.ret (freshEvent Nat funcIntString) ∧
    [Arg.val tInt 1].length ≠ funcIntString.NumIn ∧
    ((Fire 64 funcIntString (noFaults Nat) exampleBody []
        (runOps 64 funcIntString (noFaults Nat) exampleBody exampleOps (freshEvent Nat funcIntString)).event
        [Arg.val tInt 1]).outcome = Res.panic (Panic.paramCount [Arg.val tInt 1].length
          funcIntString.NumIn) ∧
      (Fire 64 funcIntString (noFaults Nat) exampleBody []
        (runOps 64 funcIntString (noFaults Nat) exampleBody exampleOps (freshEvent Nat funcIntString)).event
        [Arg.val tInt 1]).trace = [] ∧
      (Fire 64 funcIntString (noFaults Nat) exampleBody []
        (runOps 64 funcIntString (noFaults Nat) exampleBody exampleOps (freshEvent Nat funcIntString)).event
        [Arg.val tInt 1]).event
        = (runOps 64 funcIntString (noFaults Nat) exampleBody exampleOps (freshEvent Nat funcIntString)).event) ∧
    (Fire 64 funcIntString (noFaults Nat) exampleBody []
        (runOps 64 funcIntString (noFaults Nat) exampleBody exampleOps (freshEvent Nat funcIntString)).event
        exampleArgs).outcome = Res.ret () ∧
    calls (Fire 64 funcIntString (noFaults Nat) exampleBody []
        (runOps 64 funcIntString (noFaults Nat) exampleBody exampleOps (freshEvent Nat funcIntString)).event
        exampleArgs).trace ≠ [] :=
  ⟨rfl, by decide,
    C6_fire_wrong_arity 64 funcIntString (noFaults Nat) exampleBody exampleOps (freshEvent Nat funcIntString) []
      [Arg.val tInt 1] rfl (by decide),
    by decide, by decide⟩

/-- C9, as amended.  On every event reached from `NewEvent[F]` by a sequence of
calls, so also the new event itself, when the number of arguments is right and
at some position the parameter type is not of kind `Interface` and the kind of
the argument differs from the kind of the parameter type, `Fire` panics in its
validation with the kind panic (raised at the first such position), takes no
step (no callback body is run) and leaves the event as it was. -/
theorem C9_fire_wrong_kind {F : Type} (uintSize : Nat) (tt : FuncType)
    (faults : Faults F)
    (body : F → List Arg → List (Action F)) (ops : List (Op F)) (e0 : Event F)
    (order : List Nat) (args : List Arg) (i : Nat)
    (hnew : NewEvent tt = Res.ret e0) (hlen : args.length = tt.NumIn)
    (hi : i < tt.ins.length) (ha : i < args.length)
    (hni : (tt.ins[i]).kind ≠ Kind.Interface) (hk : (args[i]).Kind ≠ (tt.ins[i]).kind) :
    ∃ got want, want ≠ Kind.Interface ∧ got ≠ want ∧
      (Fire uintSize tt faults body order (runOps uintSize tt faults body ops e0).event args).outcome
        = Res.panic (Panic.invalidArgKind got want) ∧
      (Fire uintSize tt faults body order (runOps uintSize tt faults body ops e0).event args).trace = [] ∧
      (Fire uintSize tt faults body order (runOps uintSize tt faults body ops e0).event args).event
        = (runOps uintSize tt faults body ops e0).event := by
  obtain ⟨hm, hkinds⟩ := reachable_inv uintSize tt faults body ops e0 hnew
  have hi2 : i < (tt.ins.map GoType.kind).length := by rw [List.length_map]; exact hi
  obtain ⟨got, want, hw, hg, hc⟩ := checkKinds_mismatch args (tt.ins.map GoType.kind) i ha hi2
    (by rw [List.getElem_map]; exact hni) (by rw [List.getElem_map]; exact hk)
  have hl : ¬ args.length ≠ (tt.ins.map GoType.kind).length := by
    rw [List.length_map]; exact not_not.mpr hlen
  refine ⟨got, want, hw, hg, ?_⟩
  rw [Fire_unlocked uintSize tt faults body order _ args hm, hkinds, if_neg hl, hc]
  exact ⟨rfl, rfl, rfl⟩

/-- C9, witness: `Fire("a")` on a new `Event[func(int)]`. -/
theorem C9_fire_wrong_kind_witness :
    NewEvent funcInt = Res.ret (freshEvent Nat funcInt) ∧
    [Arg.val tString 97].length = funcInt.NumIn ∧
    (funcInt.ins[0]).kind ≠ Kind.Interface ∧
    ([Arg.val tString 97][0]).Kind ≠ (funcInt.ins[0]).kind ∧
    ∃ got want, want ≠ Kind.Interface ∧ got ≠ want ∧
      (Fire 64 funcInt (noFaults Nat) (noActions Nat) []
        (runOps 64 funcInt (noFaults Nat) (noActions Nat) [] (freshEvent Nat funcInt)).event
        [Arg.val tString 97]).outcome = Res.panic (Panic.invalidArgKind got want) ∧
      (Fire 64 funcInt (noFaults Nat) (noActions Nat) []
        (runOps 64 funcInt (noFaults Nat) (noActions Nat) [] (freshEvent Nat funcInt)).event
        [Arg.val tString 97]).trace = [] ∧
      (Fire 64 funcInt (noFaults Nat) (noActions Nat) []
        (runOps 64 funcInt (noFaults Nat) (noActions Nat) [] (freshEvent Nat funcInt)).event
        [Arg.val tString 97]).event
        = (runOps 64 funcInt (noFaults Nat) (noActions Nat) [] (freshEvent Nat funcInt)).event :=
  ⟨rfl, by decide, by decide, by decide,
    C9_fire_wrong_kind 64 funcInt (noFaults Nat) (noActions Nat) [] (freshEvent Nat funcInt) []
      [Arg.val tString 97] 0 rfl (by decide) (by decide) (by decide) (by decide) (by decide)⟩

/-- C9, counterexample to the claim as stated: the parameter type of
`func(int)` is not an interface type and `MyInt` is a different type, yet
`Fire(MyInt(7))` on the new, empty `Event[func(int)]` returns without a panic. -/
theorem C9_other_type_same_kind_accepted :
    NewEvent funcInt = Res.ret (freshEvent Nat funcInt) ∧
    [Arg.val tMyInt 7].length = funcInt.NumIn ∧
    (funcInt.ins[0]).kind ≠ Kind.Interface ∧
    tMyInt ≠ funcInt.ins[0] ∧
    (Fire 64 funcInt (noFaults Nat) (noActions Nat) [] (freshEvent Nat funcInt) [Arg.val tMyInt 7]).outcome
      = Res.ret () :=
  ⟨rfl, by decide, by decide, by decide, by decide⟩

/-- C10, as amended.  On an event whose mutex is free, with callback bodies
that call `Subscribe` and `Unsubscribe` on the same event, with callback values
that may be nil and bodies that may panic.  Whatever happens, every invocation
`Fire` makes is of the snapshot taken at its start: the invocations are a first
part of the snapshot, in the order of iteration over `subs` at that moment, so a
callback that was not registered at the start is not invoked, also when a
callback subscribes it during the loop; and the subscriptions and removals made
by the callbacks do take effect on the event.  When the arguments pass the
validation of `Fire` and are accepted by `reflect.Value.Call`, and every
callback registered at the start is a non-nil func value whose body returns on
these arguments, `Fire` returns and the invocations are exactly those of the
snapshot, one per entry, so a subscription that was registered at the start is
invoked, also when a callback removes it during the loop.  A later `Fire`, under
the same conditions on the event it finds, dispatches to the snapshot of that
event, with the subscriptions made meanwhile.  When the arguments are rejected,
`Fire` takes no step, so no callback adds or removes anything. -/
theorem C10_fire_dispatches_snapshot {F : Type} (uintSize : Nat) (tt : FuncType)
    (faults : Faults F)
    (body : F → List Arg → List (Action F)) (order : List Nat) (e : Event F) (args : List Arg)
    (r : Run F) (h : e.subMutex = false) (hr : Fire uintSize tt faults body order e args = r) :
    (rangeOrder order e.subs.entries).Perm e.subs.entries ∧
    calls r.trace
      <+: (rangeOrder order e.subs.entries).map (fun s => (s.2.callbackReflect, args, false)) ∧
    (∀ cb, (∀ s ∈ e.subs.entries, s.2.callbackReflect ≠ ValueOf cb) →
      ∀ c ∈ calls r.trace, c.1 ≠ ValueOf cb) ∧
    r.event.subs = replay r.trace e.subs ∧
    ((args.length = e.argKinds.length ∧ checkKinds args e.argKinds = none ∧
        callAccepts tt args = true ∧
        ∀ s ∈ e.subs.entries, faults.isNil s.2.callbackReflect.fn = false ∧
          faults.panics s.2.callbackReflect.fn args = false) →
      r.outcome = Res.ret () ∧
      calls r.trace
        = (rangeOrder order e.subs.entries).map (fun s => (s.2.callbackReflect, args, false)) ∧
      (∀ subId s, e.subs.lookup subId = some s →
        (s.callbackReflect, args, false) ∈ calls r.trace)) ∧
    (∀ order2 args2,
      (args2.length = e.argKinds.length ∧ checkKinds args2 e.argKinds = none ∧
        callAccepts tt args2 = true ∧
        ∀ s ∈ r.event.subs.entries, faults.isNil s.2.callbackReflect.fn = false ∧
          faults.panics s.2.callbackReflect.fn args2 = false) →
      (Fire uintSize tt faults body order2 r.event args2).outcome = Res.ret () ∧
      calls (Fire uintSize tt faults body order2 r.event args2).trace
        = (rangeOrder order2 r.event.subs.entries).map
            (fun s => (s.2.callbackReflect, args2, false))) ∧
    (¬ (args.length = e.argKinds.length ∧ checkKinds args e.argKinds = none ∧
        callAccepts tt args = true) →
      r.trace = [] ∧ r.event = e) := by
  subst hr
  have ht := Fire_tracks uintSize tt faults body order e args h
  have hperm := rangeOrder_perm order e.subs.entries
  have hsnap : ∀ (order1 : List Nat) (e1 : Event F) (args1 : List Arg),
      (∀ s ∈ e1.subs.entries, faults.isNil s.2.callbackReflect.fn = false ∧
        faults.panics s.2.callbackReflect.fn args1 = false) →
      ∀ fn ∈ (rangeOrder order1 e1.subs.entries).map (fun s => s.2.callbackReflect),
        faults.isNil fn.fn = false ∧ faults.panics fn.fn args1 = false := by
    intro order1 e1 args1 hfn fn hmem
    obtain ⟨s, hs, rfl⟩ := List.mem_map.mp hmem
    exact hfn s ((rangeOrder_perm order1 e1.subs.entries).mem_iff.mp hs)
  have hpre : calls (Fire uintSize tt faults body order e args).trace
      <+: (rangeOrder order e.subs.entries).map
        (fun s => (s.2.callbackReflect, args, false)) := by
    rw [Fire_calls uintSize tt faults body order e args h]
    split
    · have hm : (rangeOrder order e.subs.entries).map (fun s => (s.2.callbackReflect, args, false))
          = ((rangeOrder order e.subs.entries).map (fun s => s.2.callbackReflect)).map
              (fun fn => (fn, args, false)) := by
        rw [List.map_map]; rfl
      rw [hm]
      exact (dispatched_initial faults args _).map _
    · exact List.nil_prefix
  refine ⟨hperm, hpre, ?_, ht.2.2.2.2.2, ?_, ?_, ?_⟩
  · intro cb hcb c hc heq
    obtain ⟨s, hs, rfl⟩ := List.mem_map.mp (hpre.subset hc)
    exact hcb s (hperm.mem_iff.mp hs) heq
  · rintro ⟨hlen, hkinds, hcall, hfn⟩
    have hcalls : calls (Fire uintSize tt faults body order e args).trace
        = (rangeOrder order e.subs.entries).map
          (fun s => (s.2.callbackReflect, args, false)) := by
      rw [Fire_valid uintSize tt faults body order e args h hlen hkinds,
        (callLoop_calls uintSize tt faults body args hcall _ e h (hsnap order e args hfn)).2,
        List.map_map]
      rfl
    refine ⟨?_, hcalls, ?_⟩
    · rw [Fire_valid uintSize tt faults body order e args h hlen hkinds]
      exact (callLoop_calls uintSize tt faults body args hcall _ e h (hsnap order e args hfn)).1
    · intro subId s hs
      rw [hcalls]
      have hmem : (⟨subId, s⟩ : Sigma (fun _ : SubscriptionId => trackedSub F))
          ∈ e.subs.entries := AList.mem_lookup_iff.mp (by rw [hs]; exact rfl)
      exact List.mem_map.mpr ⟨⟨subId, s⟩, hperm.mem_iff.mpr hmem, rfl⟩
  · rintro order2 args2 ⟨hlen, hkinds, hcall, hfn⟩
    rw [Fire_valid uintSize tt faults body order2 _ args2 ht.1 (by rw [ht.2.2.1]; exact hlen)
        (by rw [ht.2.2.1]; exact hkinds)]
    refine ⟨(callLoop_calls uintSize tt faults body args2 hcall _ _ ht.1
      (hsnap order2 _ args2 hfn)).1, ?_⟩
    rw [(callLoop_calls uintSize tt faults body args2 hcall _ _ ht.1
      (hsnap order2 _ args2 hfn)).2, List.map_map]
    rfl
  · intro hnot
    rw [Fire_unlocked uintSize tt faults body order e args h]
    by_cases hlen : args.length = e.argKinds.length
    · rw [if_neg (not_not.mpr hlen)]
      cases hkinds : checkKinds args e.argKinds with
      | some p => exact ⟨rfl, rfl⟩
      | none =>
        have hcall : callAccepts tt args = false := by
          cases hc : callAccepts tt args with
          | false => rfl
          | true => exact absurd ⟨hlen, hkinds, hc⟩ hnot
        exact callLoop_rejects uintSize tt faults body args hcall _ e
    · rw [if_pos hlen]
      exact ⟨rfl, rfl⟩

/-- C10, witness: in `exampleFire` callback 1 removes the subscription 3 and
callback 0 subscribes callback 10 (id 4); callback 2 of the subscription 3 is
still invoked, callback 10 is not, and the next `Fire` invokes callback 10 and
no longer callback 2. -/
theorem C10_fire_dispatches_snapshot_witness :
    threeSubscribers.subMutex = false ∧
    Fire 64 funcIntString (noFaults Nat) exampleBody [2, 0] threeSubscribers exampleArgs
      = exampleFire ∧
    ((rangeOrder [2, 0] threeSubscribers.subs.entries).Perm threeSubscribers.subs.entries ∧
    calls exampleFire.trace
      <+: (rangeOrder [2, 0] threeSubscribers.subs.entries).map
        (fun s => (s.2.callbackReflect, exampleArgs, false)) ∧
    (∀ cb, (∀ s ∈ threeSubscribers.subs.entries, s.2.callbackReflect ≠ ValueOf cb) →
      ∀ c ∈ calls exampleFire.trace, c.1 ≠ ValueOf cb) ∧
    exampleFire.event.subs = replay exampleFire.trace threeSubscribers.subs ∧
    ((exampleArgs.length = threeSubscribers.argKinds.length ∧
        checkKinds exampleArgs threeSubscribers.argKinds = none ∧
        callAccepts funcIntString exampleArgs = true ∧
        ∀ s ∈ threeSubscribers.subs.entries,
          (noFaults Nat).isNil s.2.callbackReflect.fn = false ∧
          (noFaults Nat).panics s.2.callbackReflect.fn exampleArgs = false) →
      exampleFire.outcome = Res.ret () ∧
      calls exampleFire.trace
        = (rangeOrder [2, 0] threeSubscribers.subs.entries).map
            (fun s => (s.2.callbackReflect, exampleArgs, false)) ∧
      (∀ subId s, threeSubscribers.subs.lookup subId = some s →
        (s.callbackReflect, exampleArgs, false) ∈ calls exampleFire.trace)) ∧
    (∀ order2 args2,
      (args2.length = threeSubscribers.argKinds.length ∧
        checkKinds args2 threeSubscribers.argKinds = none ∧
        callAccepts funcIntString args2 = true ∧
        ∀ s ∈ exampleFire.event.subs.entries,
          (noFaults Nat).isNil s.2.callbackReflect.fn = false ∧
          (noFaults Nat).panics s.2.callbackReflect.fn args2 = false) →
      (Fire 64 funcIntString (noFaults Nat) exampleBody order2 exampleFire.event
        args2).outcome = Res.ret () ∧
      calls (Fire 64 funcIntString (noFaults Nat) exampleBody order2 exampleFire.event
        args2).trace
        = (rangeOrder order2 exampleFire.event.subs.entries).map
            (fun s => (s.2.callbackReflect, args2, false))) ∧
    (¬ (exampleArgs.length = threeSubscribers.argKinds.length ∧
        checkKinds exampleArgs threeSubscribers.argKinds = none ∧
        callAccepts funcIntString exampleArgs = true) →
      exampleFire.trace = [] ∧ exampleFire.event = threeSubscribers)) ∧
    (exampleArgs.length = threeSubscribers.argKinds.length ∧
      checkKinds exampleArgs threeSubscribers.argKinds = none ∧
      callAccepts funcIntString exampleArgs = true) ∧
    exampleFire.trace
      = [Ev.call ⟨1⟩ exampleArgs false, Ev.unsubscribed 3 none,
          Ev.call ⟨0⟩ exampleArgs false, Ev.subscribed 10 4,
          Ev.call ⟨2⟩ exampleArgs false] ∧
    exampleFire.event.subs.keys = [4, 2, 1] ∧
    calls (Fire 64 funcIntString (noFaults Nat) exampleBody [] exampleFire.event
      exampleArgs).trace
      = [(⟨10⟩, exampleArgs, false), (⟨1⟩, exampleArgs, false), (⟨0⟩, exampleArgs, false)] :=
  ⟨rfl, rfl,
    C10_fire_dispatches_snapshot 64 funcIntString (noFaults Nat) exampleBody [2, 0]
      threeSubscribers exampleArgs exampleFire rfl rfl,
    by decide, by decide, by decide, by decide⟩

/-- C10, counterexample to the claim as stated: `Subscribe` stores the nil func
value like any other callback.  On a new `Event[func(int, string)]` the
callbacks 0, 1 and 2 are subscribed (ids 1, 2 and 3), of which callback 0 is
nil, and `Fire(1, "a")` visits the subscriptions in the order 2, 1, 3.
Callback 1 removes the subscription 3, which was registered when `Fire`
started; then `reflect.Value.Call` panics on the nil func value of the
subscription 1, `Fire` ends with that panic, and callback 2 of the subscription
3 is never invoked. -/
theorem C10_removed_subscription_not_invoked :
    (runOps 64 funcIntString nilZero exampleBody
      [Op.subscribe 0, Op.subscribe 1, Op.subscribe 2, Op.fire [2, 0] exampleArgs]
      (freshEvent Nat funcIntString)).trace
      = [Ev.subscribed 0 1, Ev.subscribed 1 2, Ev.subscribed 2 3,
          Ev.call ⟨1⟩ exampleArgs false, Ev.unsubscribed 3 none] ∧
    threeSubscribers.subMutex = false ∧
    threeSubscribers.subs.keys = [3, 2, 1] ∧
    (threeSubscribers.subs.lookup 3).map (fun s => s.callbackReflect) = some ⟨2⟩ ∧
    exampleArgs.length = threeSubscribers.argKinds.length ∧
    checkKinds exampleArgs threeSubscribers.argKinds = none ∧
    callAccepts funcIntString exampleArgs = true ∧
    (Fire 64 funcIntString nilZero exampleBody [2, 0] threeSubscribers exampleArgs).trace
      = [Ev.call ⟨1⟩ exampleArgs false, Ev.unsubscribed 3 none] ∧
    (Fire 64 funcIntString nilZero exampleBody [2, 0] threeSubscribers exampleArgs).outcome
      = Res.panic Panic.nilFunc ∧
    (⟨2⟩, exampleArgs, false)
      ∉ calls (Fire 64 funcIntString nilZero exampleBody [2, 0] threeSubscribers
          exampleArgs).trace := by
  decide

/-- C15, as amended.  On every event reached from `NewEvent` by a sequence of
calls in which `Subscribe` was called fewer than `2 ^ uintSize` times:
`Subscribe(cb)` returns an id, `Unsubscribe` of that id right after returns nil,
and the map of subscriptions is then the one before the `Subscribe`; so `Fire`
makes the very invocations it would have made without the two calls.  In
particular on a new event, after `Subscribe` and `Unsubscribe` of the same id,
`Fire` invokes no callback. -/
theorem C15_subscribe_unsubscribe_restores {F : Type} (uintSize : Nat) (tt : FuncType)
    (faults : Faults F)
    (body : F → List Arg → List (Action F)) (ops : List (Op F)) (e0 : Event F) (cb : F)
    (hnew : NewEvent tt = Res.ret e0)
    (hk : (subscribedIds (runOps uintSize tt faults body ops e0).trace).length < 2 ^ uintSize) :
    ∃ e1 subId e2,
      Subscribe uintSize (runOps uintSize tt faults body ops e0).event cb = Res.ret (e1, subId) ∧
      Unsubscribe e1 subId = Res.ret (e2, none) ∧
      e2.subs = (runOps uintSize tt faults body ops e0).event.subs ∧
      e2.argKinds = (runOps uintSize tt faults body ops e0).event.argKinds ∧
      e2.subMutex = false ∧
      (∀ order args, calls (Fire uintSize tt faults body order e2 args).trace
        = calls (Fire uintSize tt faults body order (runOps uintSize tt faults body ops e0).event args).trace) ∧
      (ops = [] → ∀ order args, calls (Fire uintSize tt faults body order e2 args).trace = []) := by
  have he := NewEvent_eq tt e0 hnew
  subst he
  have ht := runOps_tracks uintSize tt faults body ops (freshEvent F tt) rfl
  obtain ⟨hlast, hkeys⟩ := reachable_counter uintSize tt faults body ops hk
  have hfree : (runOps uintSize tt faults body ops (freshEvent F tt)).event.subs.lookup
      (((runOps uintSize tt faults body ops (freshEvent F tt)).event.lastSubId + 1) % 2 ^ uintSize)
      = none := by
    cases hl : (runOps uintSize tt faults body ops (freshEvent F tt)).event.subs.lookup
      (((runOps uintSize tt faults body ops (freshEvent F tt)).event.lastSubId + 1) % 2 ^ uintSize) with
    | none => rfl
    | some s =>
      exfalso
      obtain ⟨h1, h2, _⟩ := hkeys _ s hl
      rw [hlast] at h1 h2
      by_cases hlt : (subscribedIds (runOps uintSize tt faults body ops (freshEvent F tt)).trace).length
          + 1 < 2 ^ uintSize
      · rw [Nat.mod_eq_of_lt hlt] at h2
        exact Nat.not_succ_le_self _ h2
      · have heq : (subscribedIds (runOps uintSize tt faults body ops (freshEvent F tt)).trace).length
            + 1 = 2 ^ uintSize := by omega
        rw [heq, Nat.mod_self] at h1
        exact Nat.not_succ_le_zero 0 h1
  have hun : Unsubscribe
      { subMutex := false
        lastSubId := ((runOps uintSize tt faults body ops (freshEvent F tt)).event.lastSubId + 1)
          % 2 ^ uintSize
        subs := (runOps uintSize tt faults body ops (freshEvent F tt)).event.subs.insert
          (((runOps uintSize tt faults body ops (freshEvent F tt)).event.lastSubId + 1) % 2 ^ uintSize)
          { subId := ((runOps uintSize tt faults body ops (freshEvent F tt)).event.lastSubId + 1)
              % 2 ^ uintSize
            callback := cb, callbackReflect := ValueOf cb }
        argKinds := (runOps uintSize tt faults body ops (freshEvent F tt)).event.argKinds }
      (((runOps uintSize tt faults body ops (freshEvent F tt)).event.lastSubId + 1) % 2 ^ uintSize)
      = Res.ret
        ({ subMutex := false
           lastSubId := ((runOps uintSize tt faults body ops (freshEvent F tt)).event.lastSubId + 1)
             % 2 ^ uintSize
           subs := (runOps uintSize tt faults body ops (freshEvent F tt)).event.subs
           argKinds := (runOps uintSize tt faults body ops (freshEvent F tt)).event.argKinds }, none) := by
    rw [Unsubscribe_unlocked _ _ rfl]
    simp only [AList.lookup_insert, erase_insert_of_not_mem _ _ _ hfree]
  have hfire : ∀ order args,
      calls (Fire uintSize tt faults body order
        { subMutex := false
          lastSubId := ((runOps uintSize tt faults body ops (freshEvent F tt)).event.lastSubId + 1)
            % 2 ^ uintSize
          subs := (runOps uintSize tt faults body ops (freshEvent F tt)).event.subs
          argKinds := (runOps uintSize tt faults body ops (freshEvent F tt)).event.argKinds } args).trace
      = calls (Fire uintSize tt faults body order
          (runOps uintSize tt faults body ops (freshEvent F tt)).event args).trace :=
    fun order args => Fire_calls_congr uintSize tt faults body order _ _ args rfl ht.1 rfl rfl
  refine ⟨_, _, _, Subscribe_unlocked uintSize _ cb ht.1, hun, rfl, rfl, rfl, hfire, ?_⟩
  intro hops order args
  subst hops
  rw [hfire, Fire_calls uintSize tt faults body order _ args ht.1]
  split
  · show List.map _ (dispatched faults args (List.map _ (rangeOrder order []))) = []
    rw [rangeOrder_nil]
    rfl
  · rfl

/-- C15, witness: on a new `Event[func(int)]`, `Subscribe` returns 1,
`Unsubscribe(1)` returns nil, and `Fire(1)` invokes no callback. -/
theorem C15_subscribe_unsubscribe_restores_witness :
    NewEvent funcInt = Res.ret (freshEvent Nat funcInt) ∧
    (subscribedIds (runOps 64 funcInt (noFaults Nat) (noActions Nat) [] (freshEvent Nat funcInt)).trace).length
      < 2 ^ 64 ∧
    (∃ e1 subId e2,
      Subscribe 64 (runOps 64 funcInt (noFaults Nat) (noActions Nat) [] (freshEvent Nat funcInt)).event 5
        = Res.ret (e1, subId) ∧
      Unsubscribe e1 subId = Res.ret (e2, none) ∧
      e2.subs = (runOps 64 funcInt (noFaults Nat) (noActions Nat) [] (freshEvent Nat funcInt)).event.subs ∧
      e2.argKinds
        = (runOps 64 funcInt (noFaults Nat) (noActions Nat) [] (freshEvent Nat funcInt)).event.argKinds ∧
      e2.subMutex = false ∧
      (∀ order args, calls (Fire 64 funcInt (noFaults Nat) (noActions Nat) order e2 args).trace
        = calls (Fire 64 funcInt (noFaults Nat) (noActions Nat) order
            (runOps 64 funcInt (noFaults Nat) (noActions Nat) [] (freshEvent Nat funcInt)).event args).trace) ∧
      (([] : List (Op Nat)) = [] →
        ∀ order args, calls (Fire 64 funcInt (noFaults Nat) (noActions Nat) order e2 args).trace = [])) ∧
    (runOps 64 funcInt (noFaults Nat) (noActions Nat)
      [Op.subscribe 5, Op.unsubscribe 1, Op.fire [] [Arg.val tInt 1]]
      (freshEvent Nat funcInt)).trace = [Ev.subscribed 5 1, Ev.unsubscribed 1 none] :=
  ⟨rfl, by decide,
    C15_subscribe_unsubscribe_restores 64 funcInt (noFaults Nat) (noActions Nat) [] (freshEvent Nat funcInt) 5
      rfl (by decide),
    by decide⟩

/-- C15, counterexample to the claim as stated: after `2 ^ 32` calls of
`Subscribe` on a 32-bit platform the id 1 is still registered and `lastSubId`
has wrapped to 0; `Subscribe` then returns the id 1 again, replacing that
subscription, and `Unsubscribe(1)` removes it: the subscription 1 that was
registered before the two calls is no longer registered after them. -/
theorem C15_wrapped_id_not_restored :
    ((wrapped 32).subs.lookup 1).isSome = true ∧
    (runOps 32 funcNone (noFaults Unit) (noActions Unit) [Op.subscribe (), Op.unsubscribe 1] (wrapped 32)).trace
      = [Ev.subscribed () 1, Ev.unsubscribed 1 none] ∧
    ((runOps 32 funcNone (noFaults Unit) (noActions Unit) [Op.subscribe (), Op.unsubscribe 1]
      (wrapped 32)).event.subs.lookup 1).isSome = false :=
  ⟨wrapped_has_one 32 (by norm_num), wrapped_subscribe_unsubscribe 32 (by norm_num)⟩

/-- C17.  With the mutex as a flag of the event: when `Fire` is called with the
mutex free, every callback is invoked with the mutex free, `Fire` does not
block, also not in a `Subscribe` or `Unsubscribe` that a callback calls on the
same event, and the mutex is free when `Fire` ends; `Subscribe` and
`Unsubscribe` return with the mutex free.  From any state at all, the mutex is
free whenever `Subscribe`, `Unsubscribe` or `Fire` returns, and no callback is
invoked with the mutex held. -/
theorem C17_mutex_free_at_calls_and_returns {F : Type} (uintSize : Nat) (tt : FuncType)
    (faults : Faults F)
    (body : F → List Arg → List (Action F)) (order : List Nat) (e : Event F) (args : List Arg)
    (h : e.subMutex = false) :
    (∀ c ∈ calls (Fire uintSize tt faults body order e args).trace, c.2.2 = false) ∧
    (Fire uintSize tt faults body order e args).outcome ≠ Res.blocked ∧
    (Fire uintSize tt faults body order e args).event.subMutex = false ∧
    (∀ fn, (runActions uintSize (body fn args) e).outcome = Res.ret ()) ∧
    (∀ cb, ∃ e1 subId, Subscribe uintSize e cb = Res.ret (e1, subId) ∧ e1.subMutex = false) ∧
    (∀ subId, ∃ e1 err, Unsubscribe e subId = Res.ret (e1, err) ∧ e1.subMutex = false) ∧
    (∀ (e2 : Event F) cb e1 subId,
      Subscribe uintSize e2 cb = Res.ret (e1, subId) → e1.subMutex = false) ∧
    (∀ (e2 : Event F) subId e1 err,
      Unsubscribe e2 subId = Res.ret (e1, err) → e1.subMutex = false) ∧
    (∀ (e2 : Event F) order2 args2,
      (Fire uintSize tt faults body order2 e2 args2).outcome ≠ Res.blocked →
        (Fire uintSize tt faults body order2 e2 args2).event.subMutex = false) ∧
    (∀ (e2 : Event F) order2 args2,
      ∀ c ∈ calls (Fire uintSize tt faults body order2 e2 args2).trace, c.2.2 = false) := by
  have ht := Fire_tracks uintSize tt faults body order e args h
  refine ⟨Fire_calls_free uintSize tt faults body order e args, ht.2.1, ht.1,
    fun fn => (runActions_ret uintSize _ e h).1, ?_, ?_, ?_, ?_, ?_,
    fun e2 order2 args2 => Fire_calls_free uintSize tt faults body order2 e2 args2⟩
  · intro cb
    obtain ⟨e1, subId, hs, ht1⟩ := Tracks_subscribe uintSize e cb h
    exact ⟨e1, subId, hs, ht1.1⟩
  · intro subId
    obtain ⟨e1, err, hs, ht1⟩ := Tracks_unsubscribe uintSize e subId h
    exact ⟨e1, err, hs, ht1.1⟩
  · intro e2 cb e1 subId hs
    cases hm : e2.subMutex with
    | true => simp [Subscribe, Lock, hm] at hs
    | false =>
      obtain ⟨e3, subId3, hs3, ht3⟩ := Tracks_subscribe uintSize e2 cb hm
      rw [hs] at hs3
      injection hs3 with hs3
      injection hs3 with he _
      rw [he]
      exact ht3.1
  · intro e2 subId e1 err hs
    cases hm : e2.subMutex with
    | true => simp [Unsubscribe, Lock, hm] at hs
    | false =>
      obtain ⟨e3, err3, hs3, ht3⟩ := Tracks_unsubscribe uintSize e2 subId hm
      rw [hs] at hs3
      injection hs3 with hs3
      injection hs3 with he _
      rw [he]
      exact ht3.1
  · intro e2 order2 args2 hnb
    cases hm : e2.subMutex with
    | true => simp [Fire, Lock, hm] at hnb
    | false => exact (Fire_tracks uintSize tt faults body order2 e2 args2 hm).1

/-- C17, witness: the run `exampleFire`, in which callbacks call `Subscribe` and
`Unsubscribe`; all three invocations are made with the mutex free and the run
returns. -/
theorem C17_mutex_free_at_calls_and_returns_witness :
    threeSubscribers.subMutex = false ∧
    ((∀ c ∈ calls (Fire 64 funcIntString (noFaults Nat) exampleBody [2, 0] threeSubscribers exampleArgs).trace,
        c.2.2 = false) ∧
    (Fire 64 funcIntString (noFaults Nat) exampleBody [2, 0] threeSubscribers exampleArgs).outcome
      ≠ Res.blocked ∧
    (Fire 64 funcIntString (noFaults Nat) exampleBody [2, 0] threeSubscribers exampleArgs).event.subMutex
      = false ∧
    (∀ fn, (runActions 64 (exampleBody fn exampleArgs) threeSubscribers).outcome = Res.ret ()) ∧
    (∀ cb, ∃ e1 subId,
      Subscribe 64 threeSubscribers cb = Res.ret (e1, subId) ∧ e1.subMutex = false) ∧
    (∀ subId, ∃ e1 err,
      Unsubscribe threeSubscribers subId = Res.ret (e1, err) ∧ e1.subMutex = false) ∧
    (∀ (e2 : Event Nat) cb e1 subId,
      Subscribe 64 e2 cb = Res.ret (e1, subId) → e1.subMutex = false) ∧
    (∀ (e2 : Event Nat) subId e1 err,
      Unsubscribe e2 subId = Res.ret (e1, err) → e1.subMutex = false) ∧
    (∀ (e2 : Event Nat) order2 args2,
      (Fire 64 funcIntString (noFaults Nat) exampleBody order2 e2 args2).outcome ≠ Res.blocked →
        (Fire 64 funcIntString (noFaults Nat) exampleBody order2 e2 args2).event.subMutex = false) ∧
    (∀ (e2 : Event Nat) order2 args2,
      ∀ c ∈ calls (Fire 64 funcIntString (noFaults Nat) exampleBody order2 e2 args2).trace, c.2.2 = false)) ∧
    calls exampleFire.trace
      = [(⟨1⟩, exampleArgs, false), (⟨0⟩, exampleArgs, false), (⟨2⟩, exampleArgs, false)] ∧
    exampleFire.outcome = Res.ret () ∧
    (Fire 64 funcIntString (noFaults Nat) exampleBody [] { threeSubscribers with subMutex := true }
      exampleArgs).outcome = Res.blocked :=
  ⟨rfl,
    C17_mutex_free_at_calls_and_returns 64 funcIntString (noFaults Nat) exampleBody [2, 0] threeSubscribers
      exampleArgs rfl,
    by decide, by decide, by decide⟩

/-- C19, as amended.  On every event reached from `NewEvent` by a sequence of
calls in which `Subscribe` was called fewer than `2 ^ uintSize` times: every key
`k` of the map satisfies `1 ≤ k ≤ lastSubId`, the entry stored under `k` has
`subId = k`, and `lastSubId` is the number of calls of `Subscribe` made so far;
it is at least what it was after any earlier part of the sequence. -/
theorem C19_registry_invariant {F : Type} (uintSize : Nat) (tt : FuncType)
    (faults : Faults F)
    (body : F → List Arg → List (Action F)) (ops1 ops2 : List (Op F)) (e0 : Event F)
    (hnew : NewEvent tt = Res.ret e0)
    (hk : (subscribedIds (runOps uintSize tt faults body (ops1 ++ ops2) e0).trace).length
      < 2 ^ uintSize) :
    (∀ k s, (runOps uintSize tt faults body (ops1 ++ ops2) e0).event.subs.lookup k = some s →
      1 ≤ k ∧ k ≤ (runOps uintSize tt faults body (ops1 ++ ops2) e0).event.lastSubId ∧ s.subId = k) ∧
    (runOps uintSize tt faults body (ops1 ++ ops2) e0).event.lastSubId
      = (subscribedIds (runOps uintSize tt faults body (ops1 ++ ops2) e0).trace).length ∧
    (runOps uintSize tt faults body ops1 e0).event.lastSubId
      = (subscribedIds (runOps uintSize tt faults body ops1 e0).trace).length ∧
    (runOps uintSize tt faults body ops1 e0).event.lastSubId
      ≤ (runOps uintSize tt faults body (ops1 ++ ops2) e0).event.lastSubId := by
  have he := NewEvent_eq tt e0 hnew
  subst he
  obtain ⟨hlast, hkeys⟩ := reachable_counter uintSize tt faults body (ops1 ++ ops2) hk
  have happ := runOps_append uintSize tt faults body ops2 ops1 (freshEvent F tt) rfl
  have hlen : (subscribedIds (runOps uintSize tt faults body (ops1 ++ ops2) (freshEvent F tt)).trace).length
      = (subscribedIds (runOps uintSize tt faults body ops1 (freshEvent F tt)).trace).length
        + (subscribedIds (runOps uintSize tt faults body ops2
            (runOps uintSize tt faults body ops1 (freshEvent F tt)).event).trace).length := by
    rw [happ]
    simp [Run.after, subscribedIds_append]
  have hk1 : (subscribedIds (runOps uintSize tt faults body ops1 (freshEvent F tt)).trace).length
      < 2 ^ uintSize := by omega
  obtain ⟨hlast1, _⟩ := reachable_counter uintSize tt faults body ops1 hk1
  refine ⟨fun k s hs => ?_, hlast, hlast1, ?_⟩
  · obtain ⟨h1, h2, h3, _⟩ := hkeys k s hs
    exact ⟨h1, h2, h3⟩
  · rw [hlast, hlast1, hlen]
    exact Nat.le_add_right _ _

/-- C19, witness: after the calls of `exampleOps`, of which the first three are
taken as the earlier part. -/
theorem C19_registry_invariant_witness :
    NewEvent funcIntString = Res.ret (freshEvent Nat funcIntString) ∧
    (subscribedIds (runOps 64 funcIntString (noFaults Nat) exampleBody (exampleOps.take 3 ++ exampleOps.drop 3)
      (freshEvent Nat funcIntString)).trace).length < 2 ^ 64 ∧
    ((∀ k s, (runOps 64 funcIntString (noFaults Nat) exampleBody (exampleOps.take 3 ++ exampleOps.drop 3)
        (freshEvent Nat funcIntString)).event.subs.lookup k = some s →
      1 ≤ k ∧ k ≤ (runOps 64 funcIntString (noFaults Nat) exampleBody (exampleOps.take 3 ++ exampleOps.drop 3)
        (freshEvent Nat funcIntString)).event.lastSubId ∧ s.subId = k) ∧
    (runOps 64 funcIntString (noFaults Nat) exampleBody (exampleOps.take 3 ++ exampleOps.drop 3)
        (freshEvent Nat funcIntString)).event.lastSubId
      = (subscribedIds (runOps 64 funcIntString (noFaults Nat) exampleBody
          (exampleOps.take 3 ++ exampleOps.drop 3) (freshEvent Nat funcIntString)).trace).length ∧
    (runOps 64 funcIntString (noFaults Nat) exampleBody (exampleOps.take 3)
        (freshEvent Nat funcIntString)).event.lastSubId
      = (subscribedIds (runOps 64 funcIntString (noFaults Nat) exampleBody (exampleOps.take 3)
          (freshEvent Nat funcIntString)).trace).length ∧
    (runOps 64 funcIntString (noFaults Nat) exampleBody (exampleOps.take 3)
        (freshEvent Nat funcIntString)).event.lastSubId
      ≤ (runOps 64 funcIntString (noFaults Nat) exampleBody (exampleOps.take 3 ++ exampleOps.drop 3)
        (freshEvent Nat funcIntString)).event.lastSubId) ∧
    (runOps 64 funcIntString (noFaults Nat) exampleBody exampleOps
      (freshEvent Nat funcIntString)).event.lastSubId = 4 ∧
    (runOps 64 funcIntString (noFaults Nat) exampleBody exampleOps
      (freshEvent Nat funcIntString)).event.subs.keys = [4, 3] ∧
    (runOps 64 funcIntString (noFaults Nat) exampleBody (exampleOps.take 3)
      (freshEvent Nat funcIntString)).event.lastSubId = 2 :=
  ⟨rfl, by decide,
    C19_registry_invariant 64 funcIntString (noFaults Nat) exampleBody (exampleOps.take 3) (exampleOps.drop 3)
      (freshEvent Nat funcIntString) rfl (by decide),
    by decide, by decide, by decide⟩

/-- C19, counterexample to the claim as stated: on a 32-bit platform, after
`2 ^ 32` calls of `Subscribe` the counter `lastSubId` is 0, which is neither the
number of calls made nor at least what it was before, and the key 1 of the map is
greater than `lastSubId`. -/
theorem C19_counter_wraps :
    (subscribedIds (runOps 32 funcNone (noFaults Unit) (noActions Unit)
      (List.replicate (2 ^ 32) (Op.subscribe ())) (freshEvent Unit funcNone)).trace).length
      = 2 ^ 32 ∧
    (wrapped 32).lastSubId = 0 ∧
    ((wrapped 32).subs.lookup 1).isSome = true :=
  ⟨runOps_replicate_length 32 funcNone (noFaults Unit) (noActions Unit) () (2 ^ 32) (freshEvent Unit funcNone)
      rfl,
    wrapped_lastSubId 32, wrapped_has_one 32 (by norm_num)⟩

/-- C20, as amended.  On every event reached from `NewEvent` by a sequence of
calls, `Unsubscribe(subId)` returns.  When it returns an error the event is
unchanged.  When it returns nil, the entry of `subId` is removed from the map
and every other key keeps its entry.  In both cases `lastSubId` and `argKinds`
are unchanged, so the next `Subscribe` returns `lastSubId + 1` modulo
`2 ^ uintSize`; that is `lastSubId + 1` while fewer than `2 ^ uintSize - 1`
calls of `Subscribe` were made, and it is not the freed id while fewer than
`2 ^ uintSize` were made. -/
theorem C20_unsubscribe_frame {F : Type} (uintSize : Nat) (tt : FuncType)
    (faults : Faults F)
    (body : F → List Arg → List (Action F)) (ops : List (Op F)) (e0 : Event F)
    (subId : SubscriptionId) (hnew : NewEvent tt = Res.ret e0) :
    ∃ e1 err, Unsubscribe (runOps uintSize tt faults body ops e0).event subId = Res.ret (e1, err) ∧
      (err ≠ none → e1 = (runOps uintSize tt faults body ops e0).event) ∧
      (err = none →
        (∃ s, (runOps uintSize tt faults body ops e0).event.subs.lookup subId = some s) ∧
        e1.subs = (runOps uintSize tt faults body ops e0).event.subs.erase subId ∧
        e1.subs.lookup subId = none ∧
        ∀ k, k ≠ subId →
          e1.subs.lookup k = (runOps uintSize tt faults body ops e0).event.subs.lookup k) ∧
      e1.lastSubId = (runOps uintSize tt faults body ops e0).event.lastSubId ∧
      e1.argKinds = (runOps uintSize tt faults body ops e0).event.argKinds ∧
      (∀ cb, ∃ e2, Subscribe uintSize e1 cb
        = Res.ret (e2, ((runOps uintSize tt faults body ops e0).event.lastSubId + 1) % 2 ^ uintSize)) ∧
      ((subscribedIds (runOps uintSize tt faults body ops e0).trace).length + 1 < 2 ^ uintSize →
        ((runOps uintSize tt faults body ops e0).event.lastSubId + 1) % 2 ^ uintSize
          = (runOps uintSize tt faults body ops e0).event.lastSubId + 1) ∧
      ((subscribedIds (runOps uintSize tt faults body ops e0).trace).length < 2 ^ uintSize →
        err = none →
        ((runOps uintSize tt faults body ops e0).event.lastSubId + 1) % 2 ^ uintSize ≠ subId) := by
  have he := NewEvent_eq tt e0 hnew
  subst he
  have ht := runOps_tracks uintSize tt faults body ops (freshEvent F tt) rfl
  have hmod : (subscribedIds (runOps uintSize tt faults body ops (freshEvent F tt)).trace).length + 1
      < 2 ^ uintSize →
      ((runOps uintSize tt faults body ops (freshEvent F tt)).event.lastSubId + 1) % 2 ^ uintSize
        = (runOps uintSize tt faults body ops (freshEvent F tt)).event.lastSubId + 1 := by
    intro hlt
    have hk : (subscribedIds (runOps uintSize tt faults body ops (freshEvent F tt)).trace).length
        < 2 ^ uintSize := by omega
    rw [(reachable_counter uintSize tt faults body ops hk).1]
    exact Nat.mod_eq_of_lt hlt
  rw [Unsubscribe_unlocked _ subId ht.1]
  cases hl : (runOps uintSize tt faults body ops (freshEvent F tt)).event.subs.lookup subId with
  | none =>
    refine ⟨_, _, rfl, fun _ => rfl, fun hn => ?_, rfl, rfl, fun cb => ?_, hmod, fun _ hn => ?_⟩
    · simp at hn
    · exact ⟨_, Subscribe_unlocked uintSize _ cb ht.1⟩
    · simp at hn
  | some s =>
    refine ⟨_, _, rfl, fun hn => absurd rfl hn, fun _ => ⟨⟨s, rfl⟩, rfl, ?_, fun k hk => ?_⟩,
      rfl, rfl, fun cb => ?_, hmod, fun hk _ heq => ?_⟩
    · exact AList.lookup_erase subId _
    · exact AList.lookup_erase_ne hk
    · exact ⟨_, Subscribe_unlocked uintSize
        { (runOps uintSize tt faults body ops (freshEvent F tt)).event with
          subs := (runOps uintSize tt faults body ops (freshEvent F tt)).event.subs.erase subId } cb ht.1⟩
    · obtain ⟨hlast, hkeys⟩ := reachable_counter uintSize tt faults body ops hk
      obtain ⟨h1, h2, _⟩ := hkeys subId s hl
      rw [← heq, hlast] at h1 h2
      by_cases hlt : (subscribedIds (runOps uintSize tt faults body ops (freshEvent F tt)).trace).length
          + 1 < 2 ^ uintSize
      · rw [Nat.mod_eq_of_lt hlt] at h2
        exact Nat.not_succ_le_self _ h2
      · have heq2 : (subscribedIds (runOps uintSize tt faults body ops (freshEvent F tt)).trace).length
            + 1 = 2 ^ uintSize := by omega
        rw [heq2, Nat.mod_self] at h1
        exact Nat.not_succ_le_zero 0 h1

/-- C20, witness: after the calls of `exampleOps` the ids 3 and 4 are
registered and `lastSubId` is 4; `Unsubscribe(3)` returns nil and the next
`Subscribe` returns 5, `Unsubscribe(1)` returns an error. -/
theorem C20_unsubscribe_frame_witness :
    NewEvent funcIntString = Res.ret (freshEvent Nat funcIntString) ∧
    (∃ e1 err,
      Unsubscribe (runOps 64 funcIntString (noFaults Nat) exampleBody exampleOps
        (freshEvent Nat funcIntString)).event 3 = Res.ret (e1, err) ∧
      (err ≠ none → e1 = (runOps 64 funcIntString (noFaults Nat) exampleBody exampleOps
        (freshEvent Nat funcIntString)).event) ∧
      (err = none →
        (∃ s, (runOps 64 funcIntString (noFaults Nat) exampleBody exampleOps
          (freshEvent Nat funcIntString)).event.subs.lookup 3 = some s) ∧
        e1.subs = (runOps 64 funcIntString (noFaults Nat) exampleBody exampleOps
          (freshEvent Nat funcIntString)).event.subs.erase 3 ∧
        e1.subs.lookup 3 = none ∧
        ∀ k, k ≠ 3 →
          e1.subs.lookup k = (runOps 64 funcIntString (noFaults Nat) exampleBody exampleOps
            (freshEvent Nat funcIntString)).event.subs.lookup k) ∧
      e1.lastSubId = (runOps 64 funcIntString (noFaults Nat) exampleBody exampleOps
        (freshEvent Nat funcIntString)).event.lastSubId ∧
      e1.argKinds = (runOps 64 funcIntString (noFaults Nat) exampleBody exampleOps
        (freshEvent Nat funcIntString)).event.argKinds ∧
      (∀ cb, ∃ e2, Subscribe 64 e1 cb
        = Res.ret (e2, ((runOps 64 funcIntString (noFaults Nat) exampleBody exampleOps
            (freshEvent Nat funcIntString)).event.lastSubId + 1) % 2 ^ 64)) ∧
      ((subscribedIds (runOps 64 funcIntString (noFaults Nat) exampleBody exampleOps
          (freshEvent Nat funcIntString)).trace).length + 1 < 2 ^ 64 →
        ((runOps 64 funcIntString (noFaults Nat) exampleBody exampleOps
            (freshEvent Nat funcIntString)).event.lastSubId + 1) % 2 ^ 64
          = (runOps 64 funcIntString (noFaults Nat) exampleBody exampleOps
            (freshEvent Nat funcIntString)).event.lastSubId + 1) ∧
      ((subscribedIds (runOps 64 funcIntString (noFaults Nat) exampleBody exampleOps
          (freshEvent Nat funcIntString)).trace).length < 2 ^ 64 →
        err = none →
        ((runOps 64 funcIntString (noFaults Nat) exampleBody exampleOps
          (freshEvent Nat funcIntString)).event.lastSubId + 1) % 2 ^ 64 ≠ 3)) ∧
    (runOps 64 funcIntString (noFaults Nat) exampleBody (exampleOps ++ [Op.unsubscribe 3, Op.subscribe 7])
      (freshEvent Nat funcIntString)).trace.drop 8
      = [Ev.unsubscribed 3 none, Ev.subscribed 7 5] ∧
    (runOps 64 funcIntString (noFaults Nat) exampleBody (exampleOps ++ [Op.unsubscribe 1])
      (freshEvent Nat funcIntString)).trace.drop 8
      = [Ev.unsubscribed 1 (some (Error.notFound 1))] :=
  ⟨rfl,
    C20_unsubscribe_frame 64 funcIntString (noFaults Nat) exampleBody exampleOps (freshEvent Nat funcIntString)
      3 rfl,
    by decide, by decide⟩

/-- C20, counterexample to the claim as stated: on a 32-bit platform, after
`2 ^ 32` calls of `Subscribe` the id 1 is registered and `lastSubId` is 0;
`Unsubscribe(1)` returns nil and the next `Subscribe` returns the freed id 1. -/
theorem C20_freed_id_returned :
    ((wrapped 32).subs.lookup 1).isSome = true ∧
    (wrapped 32).lastSubId = 0 ∧
    (runOps 32 funcNone (noFaults Unit) (noActions Unit) [Op.unsubscribe 1, Op.subscribe ()] (wrapped 32)).trace
      = [Ev.unsubscribed 1 none, Ev.subscribed () 1] :=
  ⟨wrapped_has_one 32 (by norm_num), wrapped_lastSubId 32,
    wrapped_unsubscribe_subscribe 32 (by norm_num)⟩

end subscribableevent

namespace canbus

/-! ## Basic facts -/

theorem lookup_update (name : String) (f : Link → Link) : ∀ (links : List (String × Link)),
    List.lookup name (links.map (fun p => if p.1 = name then (p.1, f p.2) else p))
      = (List.lookup name links).map f
  | [] => rfl
  | (n, l) :: rest => by
      by_cases h : n = name
      · subst h
        rw [List.map_cons, if_pos rfl, List.lookup_cons, List.lookup_cons, beq_self_eq_true]
        rfl
      · have hb : (name == n) = false := beq_false_of_ne (fun h' => h h'.symm)
        rw [List.map_cons, if_neg h, List.lookup_cons, List.lookup_cons, hb]
        exact lookup_update name f rest

theorem LinkByName_update (w : World) (name : String) (f : Link → Link) :
    LinkByName (w.update name f) name = (LinkByName w name).map f :=
  lookup_update name f w.links

theorem commands_append (s t : List Effect) : commands (s ++ t) = commands s ++ commands t := by
  induction s with
  | nil => rfl
  | cons x s ih => cases x <;> simp [commands, ih]

/-- The opening of the bus issues no command. -/
theorem open_commands (env : Env) (w : World) (c : Channel) :
    commands (Channel.open env w c).trace = commands (reconcile env w c).trace := by
  unfold Channel.open
  simp only
  split
  · split <;> simp [commands_append, commands]
  · rfl

theorem commandFailed_ne_nil (cmd : Cmd) (res : CmdResult) (h : ∀ out, res ≠ CmdResult.ok out) :
    commandFailed cmd res ≠ Outcome.nil := by
  cases res with
  | ok out => exact absurd rfl (h out)
  | exitError _ _ => simp [commandFailed]
  | otherError _ => simp [commandFailed]

/-- From a link that is down, lines 86 to 114 end without error only with the
link up at the desired bit rate. -/
theorem bringUpIfDown_down (env : Env) (w : World) (c : Channel) (link : Link)
    (pre : List Effect)
    (hl : LinkByName w c.ChannelOptions.CanInterfaceName = some link)
    (hs : link.OperState = LinkOperState.OperDown)
    (hok : (bringUpIfDown env w c link pre).outcome = Outcome.nil) :
    ∃ l, LinkByName (bringUpIfDown env w c link pre).world c.ChannelOptions.CanInterfaceName
        = some l ∧ l.OperState = LinkOperState.OperUp ∧ l.BitRate = uint32 c.bitRate := by
  unfold bringUpIfDown at hok ⊢
  rw [if_pos hs] at hok ⊢
  simp only at hok ⊢
  split at hok
  · simp only [Cmd.effect, LinkByName_update, hl, Option.map_some']
    exact ⟨_, rfl, rfl, rfl⟩
  · rename_i res hres
    exact absurd hok (commandFailed_ne_nil _ _ hres)

/-- For a CAN interface observed up or down, the reconciliation ends without
error only with the interface up at the desired bit rate. -/
theorem reconcile_up_or_down (env : Env) (w : World) (c : Channel) (link : Link)
    (hl : LinkByName w c.ChannelOptions.CanInterfaceName = some link)
    (hs : link.OperState = LinkOperState.OperUp ∨ link.OperState = LinkOperState.OperDown)
    (hok : (reconcile env w c).outcome = Outcome.nil) :
    ∃ l, LinkByName (reconcile env w c).world c.ChannelOptions.CanInterfaceName = some l ∧
      l.OperState = LinkOperState.OperUp ∧ l.BitRate = uint32 c.bitRate := by
  unfold reconcile at hok ⊢
  simp only [hl] at hok ⊢
  by_cases ht : link.linkType = "can"
  · simp only [ht, ne_eq, not_true_eq_false, if_false] at hok ⊢
    rcases hs with hup | hdown
    · simp only [hup, if_true] at hok ⊢
      by_cases hbr : link.BitRate = uint32 c.bitRate
      · simp only [hbr, not_true_eq_false, if_false, bringUpIfDown, hup] at hok ⊢
        exact ⟨link, by simpa using hl, hup, hbr⟩
      · simp only [hbr, not_false_eq_true, if_true] at hok ⊢
        have h1 : LinkByName ((Cmd.linkSetDown c.ChannelOptions.CanInterfaceName).effect w)
            c.ChannelOptions.CanInterfaceName
            = some { link with OperState := LinkOperState.OperDown } := by
          simp only [Cmd.effect, LinkByName_update, hl, Option.map_some']
        split at hok
        · rename_i out hout
          simp only [hout, h1, ht, ne_eq, not_true_eq_false, if_false] at hok ⊢
          exact bringUpIfDown_down env _ c _ _ (ht ▸ h1) rfl hok
        · rename_i res hres
          exact absurd hok (commandFailed_ne_nil _ _ hres)
    · have hnu : link.OperState ≠ LinkOperState.OperUp := by rw [hdown]; decide
      simp only [hnu, if_false] at hok ⊢
      exact bringUpIfDown_down env w c link _ hl hdown hok
  · simp [ht] at hok

/-- The run of `NewChannel` is the run of `open` on the configured channel;
only a returned error is wrapped. -/
theorem NewChannel_trace (DefaultBitRate : Int) (env : Env) (w : World)
    (co : ChannelOptions) (opts : List (Channel → Channel)) :
    (NewChannel DefaultBitRate env w co opts).2.trace
      = (Channel.open env w (configured DefaultBitRate co opts)).trace := by
  unfold NewChannel configured
  simp only
  split <;> rfl

/-- The three ways `NewChannel` ends: it returns a channel with a bus and a nil
error, or it returns no channel and a wrapped error, or it panics and returns
nothing. -/
theorem NewChannel_cases (DefaultBitRate : Int) (env : Env) (w : World)
    (co : ChannelOptions) (opts : List (Channel → Channel)) :
    ((NewChannel DefaultBitRate env w co opts).2.outcome = Outcome.nil ∧
      ∃ c bus, (NewChannel DefaultBitRate env w co opts).1 = some c ∧ c.bus = some bus) ∨
    ((∃ err, (NewChannel DefaultBitRate env w co opts).2.outcome
        = Outcome.error (Error.wrap err "open connection to listen for messages")) ∧
      (NewChannel DefaultBitRate env w co opts).1 = none) ∨
    ((∃ p, (NewChannel DefaultBitRate env w co opts).2.outcome = Outcome.panic p) ∧
      (NewChannel DefaultBitRate env w co opts).1 = none) := by
  unfold NewChannel
  simp only
  split
  · rename_i hnil
    left
    refine ⟨hnil, ?_⟩
    unfold Channel.open at hnil ⊢
    simp only at hnil ⊢
    split at hnil
    · split at hnil
      · simp at hnil
      · simp
    · rename_i hne
      exact absurd hnil hne
  · right; left; exact ⟨⟨_, rfl⟩, rfl⟩
  · rename_i p hp
    right; right; exact ⟨⟨p, hp⟩, rfl⟩

/-- When the first command of the reconciliation is the down command and it
does not end without error, nothing follows it: no up command, no bus. -/
theorem open_down_fails (env : Env) (w : World) (c : Channel) (link : Link)
    (hl : LinkByName w c.ChannelOptions.CanInterfaceName = some link)
    (ht : link.linkType = "can") (hup : link.OperState = LinkOperState.OperUp)
    (hbr : link.BitRate ≠ uint32 c.bitRate)
    (hdown : ∀ out, env.Output (Cmd.linkSetDown c.ChannelOptions.CanInterfaceName)
      ≠ CmdResult.ok out) :
    Channel.open env w c =
      ⟨c, w, [Effect.linkByName c.ChannelOptions.CanInterfaceName,
          Effect.exec (Cmd.linkSetDown c.ChannelOptions.CanInterfaceName)],
        commandFailed (Cmd.linkSetDown c.ChannelOptions.CanInterfaceName)
          (env.Output (Cmd.linkSetDown c.ChannelOptions.CanInterfaceName))⟩ := by
  have hr : reconcile env w c =
      ⟨c, w, [Effect.linkByName c.ChannelOptions.CanInterfaceName,
          Effect.exec (Cmd.linkSetDown c.ChannelOptions.CanInterfaceName)],
        commandFailed (Cmd.linkSetDown c.ChannelOptions.CanInterfaceName)
          (env.Output (Cmd.linkSetDown c.ChannelOptions.CanInterfaceName))⟩ := by
    simp only [reconcile, hl, ht, hup, hbr, ne_eq, not_true_eq_false, if_false, if_true,
      not_false_eq_true]
  have hne := commandFailed_ne_nil (Cmd.linkSetDown c.ChannelOptions.CanInterfaceName) _ hdown
  unfold Channel.open
  simp only [hr]

/-! ## Claims -/

/-- C4, as amended.  For a CAN interface observed up with a bit rate other than
the desired one, when the down command ends without error, `Channel.open`
issues the command `ip link set <name> down`, then the command
`ip link set <name> up type can bitrate <desired>`, and no other command. -/
theorem C4_down_then_up (env : Env) (w : World) (c : Channel) (link : Link) (output : String)
    (hl : LinkByName w c.ChannelOptions.CanInterfaceName = some link)
    (ht : link.linkType = "can") (hup : link.OperState = LinkOperState.OperUp)
    (hbr : link.BitRate ≠ uint32 c.bitRate)
    (hdown : env.Output (Cmd.linkSetDown c.ChannelOptions.CanInterfaceName) = CmdResult.ok output) :
    commands (Channel.open env w c).trace
      = [Cmd.linkSetDown c.ChannelOptions.CanInterfaceName,
          Cmd.linkSetUp c.ChannelOptions.CanInterfaceName c.bitRate] := by
  rw [open_commands]
  have h1 : LinkByName ((Cmd.linkSetDown c.ChannelOptions.CanInterfaceName).effect w)
      c.ChannelOptions.CanInterfaceName
      = some { link with OperState := LinkOperState.OperDown } := by
    simp only [Cmd.effect, LinkByName_update, hl, Option.map_some']
  simp only [reconcile, hl, ht, hup, hbr, hdown, h1, ne_eq, not_true_eq_false, if_false, if_true,
    not_false_eq_true, bringUpIfDown]
  split <;> simp [commands_append, commands]

/-- C4, witness: "can0" observed up at 500000 with 250000 desired gives the
down command for "can0", then the up command for "can0" at 250000, and leaves
"can0" up at 250000. -/
theorem C4_down_then_up_witness :
    LinkByName worldUp500k unopened.ChannelOptions.CanInterfaceName
      = some ⟨"can", LinkOperState.OperUp, 500000⟩ ∧
    (⟨"can", LinkOperState.OperUp, 500000⟩ : Link).linkType = "can" ∧
    (⟨"can", LinkOperState.OperUp, 500000⟩ : Link).OperState = LinkOperState.OperUp ∧
    (⟨"can", LinkOperState.OperUp, 500000⟩ : Link).BitRate ≠ uint32 unopened.bitRate ∧
    envOk.Output (Cmd.linkSetDown unopened.ChannelOptions.CanInterfaceName) = CmdResult.ok "" ∧
    commands (Channel.open envOk worldUp500k unopened).trace
      = [Cmd.linkSetDown unopened.ChannelOptions.CanInterfaceName,
          Cmd.linkSetUp unopened.ChannelOptions.CanInterfaceName unopened.bitRate] ∧
    commands (Channel.open envOk worldUp500k unopened).trace
      = [Cmd.linkSetDown "can0", Cmd.linkSetUp "can0" 250000] ∧
    LinkByName (Channel.open envOk worldUp500k unopened).world "can0"
      = some ⟨"can", LinkOperState.OperUp, 250000⟩ ∧
    (Cmd.linkSetDown "can0").Args = ["ip", "link", "set", "can0", "down"] ∧
    (Cmd.linkSetUp "can0" 250000).Args
      = ["ip", "link", "set", "can0", "up", "type", "can", "bitrate", "250000"] :=
  ⟨by decide, by decide, by decide, by decide, by decide,
    C4_down_then_up envOk worldUp500k unopened ⟨"can", LinkOperState.OperUp, 500000⟩ ""
      (by decide) (by decide) (by decide) (by decide) (by decide),
    by decide, by decide, by decide, by decide⟩

/-- C4, counterexample to the claim as stated: "can0" is observed up at 500000
with 250000 desired, the down command exits with an error, and `Channel.open`
issues the down command only and returns the error. -/
theorem C4_down_fails_no_up :
    LinkByName worldUp500k "can0" = some ⟨"can", LinkOperState.OperUp, 500000⟩ ∧
    unopened.bitRate = 250000 ∧
    commands (Channel.open envCommandsFail worldUp500k unopened).trace
      = [Cmd.linkSetDown "can0"] ∧
    (Channel.open envCommandsFail worldUp500k unopened).outcome
      = Outcome.error (Error.exitError (Cmd.linkSetDown "can0")
          "RTNETLINK answers: Operation not permitted") := by
  decide

/-- C5, the code at the failing input: "can0" is a CAN interface in state
unknown at 500000 with 250000 desired.  The reconciliation issues no command
and returns nil, the interface is still in state unknown at 500000, and
`Channel.open` goes on to open the bus and returns nil. -/
theorem C5_unknown_state_not_reconciled :
    LinkByName worldUnknown500k "can0" = some ⟨"can", LinkOperState.OperUnknown, 500000⟩ ∧
    unopened.bitRate = 250000 ∧
    (reconcile envOk worldUnknown500k unopened).outcome = Outcome.nil ∧
    commands (reconcile envOk worldUnknown500k unopened).trace = [] ∧
    LinkByName (reconcile envOk worldUnknown500k unopened).world "can0"
      = some ⟨"can", LinkOperState.OperUnknown, 500000⟩ ∧
    (Channel.open envOk worldUnknown500k unopened).outcome = Outcome.nil ∧
    (Channel.open envOk worldUnknown500k unopened).channel.bus = some ⟨"can0"⟩ := by
  decide

/-- C7, the code at the failing inputs.  `NewChannel` returns the channel
`opened`; `Close` on it returns nil and leaves its `bus` in place; `WriteFrame`
after that `Close` calls `Publish` on the bus and returns what `Publish`
returns.  On the channel that was never opened `WriteFrame` panics with a nil
pointer dereference.  Neither returns an error that says the channel is not
open. -/
theorem C7_write_frame_when_not_open :
    (NewChannel 250000 envOk worldUp250k ⟨"can0", 0⟩ []).1 = some opened ∧
    Channel.Close envOk opened
      = (opened, [Effect.busUnsubscribe ⟨"can0"⟩ (some ⟨0⟩), Effect.busDisconnect ⟨"can0"⟩],
          Outcome.nil) ∧
    Channel.WriteFrame envOk (Channel.Close envOk opened).1 exampleFrame
      = ([Effect.busPublish ⟨"can0"⟩ exampleFrame], Outcome.nil) ∧
    unopened.bus = none ∧
    Channel.WriteFrame envOk unopened exampleFrame = ([], Outcome.panic Panic.nilDereference) := by
  decide

/-- C8, the code at the failing input.  `Close` on the channel that was never
opened returns nil and makes no call.  `Close` on the channel `opened` returns
nil, and a second `Close` after it again calls `Unsubscribe` and `Disconnect`
on the bus. -/
theorem C8_second_close_disconnects_again :
    Channel.Close envOk unopened = (unopened, [], Outcome.nil) ∧
    Channel.Close envOk opened
      = (opened, [Effect.busUnsubscribe ⟨"can0"⟩ (some ⟨0⟩), Effect.busDisconnect ⟨"can0"⟩],
          Outcome.nil) ∧
    (Channel.Close envOk (Channel.Close envOk opened).1).2.1
      = [Effect.busUnsubscribe ⟨"can0"⟩ (some ⟨0⟩), Effect.busDisconnect ⟨"can0"⟩] := by
  decide

/-- C11.  For a CAN interface observed up at the desired bit rate (compared as
`uint32`, as the code does), `Channel.open` issues no command: the
reconciliation consists of the link lookup alone and returns nil, and the next
call `Channel.open` makes is the creation of the bus. -/
theorem C11_up_at_rate_no_command (env : Env) (w : World) (c : Channel) (link : Link)
    (hl : LinkByName w c.ChannelOptions.CanInterfaceName = some link)
    (ht : link.linkType = "can") (hup : link.OperState = LinkOperState.OperUp)
    (hbr : link.BitRate = uint32 c.bitRate) :
    commands (Channel.open env w c).trace = [] ∧
    reconcile env w c
      = ⟨c, w, [Effect.linkByName c.ChannelOptions.CanInterfaceName], Outcome.nil⟩ ∧
    (Channel.open env w c).trace.take 2
      = [Effect.linkByName c.ChannelOptions.CanInterfaceName,
          Effect.newBus c.ChannelOptions.CanInterfaceName] := by
  have hr : reconcile env w c
      = ⟨c, w, [Effect.linkByName c.ChannelOptions.CanInterfaceName], Outcome.nil⟩ := by
    simp [reconcile, hl, ht, hup, hbr, bringUpIfDown]
  refine ⟨by rw [open_commands, hr]; rfl, hr, ?_⟩
  unfold Channel.open
  simp only [hr]
  split <;> rfl

/-- C11, witness: "can0" observed up at 250000 with 250000 desired. -/
theorem C11_up_at_rate_no_command_witness :
    LinkByName worldUp250k unopened.ChannelOptions.CanInterfaceName
      = some ⟨"can", LinkOperState.OperUp, 250000⟩ ∧
    (⟨"can", LinkOperState.OperUp, 250000⟩ : Link).linkType = "can" ∧
    (⟨"can", LinkOperState.OperUp, 250000⟩ : Link).OperState = LinkOperState.OperUp ∧
    (⟨"can", LinkOperState.OperUp, 250000⟩ : Link).BitRate = uint32 unopened.bitRate ∧
    (commands (Channel.open envOk worldUp250k unopened).trace = [] ∧
    reconcile envOk worldUp250k unopened
      = ⟨unopened, worldUp250k, [Effect.linkByName unopened.ChannelOptions.CanInterfaceName],
          Outcome.nil⟩ ∧
    (Channel.open envOk worldUp250k unopened).trace.take 2
      = [Effect.linkByName unopened.ChannelOptions.CanInterfaceName,
          Effect.newBus unopened.ChannelOptions.CanInterfaceName]) ∧
    (Channel.open envOk worldUp250k unopened).trace
      = [Effect.linkByName "can0", Effect.newBus "can0", Effect.goConnectAndPublish ⟨"can0"⟩,
          Effect.busSubscribe ⟨"can0"⟩ (some ⟨0⟩)] :=
  ⟨by decide, by decide, by decide, by decide,
    C11_up_at_rate_no_command envOk worldUp250k unopened ⟨"can", LinkOperState.OperUp, 250000⟩
      (by decide) (by decide) (by decide) (by decide),
    by decide⟩

/-- C12.  For a CAN interface observed down, whatever its recorded bit rate,
`Channel.open` issues exactly one command, the up command with the bit rate of
the channel, and no down command.  Called through `NewChannel`, the bit rate is
that of the configured channel, which is `DefaultBitRate` when no option is
given. -/
theorem C12_down_one_up (env : Env) (w : World) (c : Channel) (link : Link)
    (hl : LinkByName w c.ChannelOptions.CanInterfaceName = some link)
    (ht : link.linkType = "can") (hdown : link.OperState = LinkOperState.OperDown) :
    commands (Channel.open env w c).trace
      = [Cmd.linkSetUp c.ChannelOptions.CanInterfaceName c.bitRate] ∧
    (∀ DefaultBitRate co opts, c = configured DefaultBitRate co opts →
      commands (NewChannel DefaultBitRate env w co opts).2.trace
        = [Cmd.linkSetUp c.ChannelOptions.CanInterfaceName c.bitRate]) ∧
    (∀ DefaultBitRate co, (configured DefaultBitRate co []).bitRate = DefaultBitRate) := by
  have hnu : link.OperState ≠ LinkOperState.OperUp := by rw [hdown]; decide
  have hc : commands (Channel.open env w c).trace
      = [Cmd.linkSetUp c.ChannelOptions.CanInterfaceName c.bitRate] := by
    have hr : reconcile env w c
        = bringUpIfDown env w c link [Effect.linkByName c.ChannelOptions.CanInterfaceName] := by
      simp only [reconcile, hl, ht, hnu, ne_eq, not_true_eq_false, if_false]
    rw [open_commands, hr, bringUpIfDown, if_pos hdown]
    simp only
    split <;> simp [commands_append, commands]
  refine ⟨hc, ?_, fun _ _ => rfl⟩
  intro D co opts hcfg
  rw [NewChannel_trace, ← hcfg]
  exact hc

/-- C12, witness: "can0" observed down; a channel made by `NewChannel` with the
default bit rate 250000 and no option issues the up command at 250000, and with
the option that sets 500000 it issues the up command at 500000. -/
theorem C12_down_one_up_witness :
    LinkByName worldDown unopened.ChannelOptions.CanInterfaceName
      = some ⟨"can", LinkOperState.OperDown, 0⟩ ∧
    (⟨"can", LinkOperState.OperDown, 0⟩ : Link).linkType = "can" ∧
    (⟨"can", LinkOperState.OperDown, 0⟩ : Link).OperState = LinkOperState.OperDown ∧
    (commands (Channel.open envOk worldDown unopened).trace
      = [Cmd.linkSetUp unopened.ChannelOptions.CanInterfaceName unopened.bitRate] ∧
    (∀ DefaultBitRate co opts, unopened = configured DefaultBitRate co opts →
      commands (NewChannel DefaultBitRate envOk worldDown co opts).2.trace
        = [Cmd.linkSetUp unopened.ChannelOptions.CanInterfaceName unopened.bitRate]) ∧
    (∀ DefaultBitRate co, (configured DefaultBitRate co []).bitRate = DefaultBitRate)) ∧
    commands (NewChannel 250000 envOk worldDown ⟨"can0", 0⟩ []).2.trace
      = [Cmd.linkSetUp "can0" 250000] ∧
    commands (NewChannel 250000 envOk worldDown ⟨"can0", 0⟩ [withBitRate 500000]).2.trace
      = [Cmd.linkSetUp "can0" 500000] :=
  ⟨by decide, by decide, by decide,
    C12_down_one_up envOk worldDown unopened ⟨"can", LinkOperState.OperDown, 0⟩
      (by decide) (by decide) (by decide),
    by decide, by decide⟩

/-- C13.  For every interface name, when the link lookup fails or the link is
not of type "can", `Channel.open` returns an error after the lookup alone: it
issues no command, does not create a bus, and leaves the channel and the world
as they were. -/
theorem C13_no_link_or_wrong_type (env : Env) (w : World) (c : Channel)
    (h : LinkByName w c.ChannelOptions.CanInterfaceName = none ∨
      ∃ link, LinkByName w c.ChannelOptions.CanInterfaceName = some link ∧
        link.linkType ≠ "can") :
    (∃ err, (Channel.open env w c).outcome = Outcome.error err) ∧
    (Channel.open env w c).trace = [Effect.linkByName c.ChannelOptions.CanInterfaceName] ∧
    commands (Channel.open env w c).trace = [] ∧
    (Channel.open env w c).channel = c ∧
    (Channel.open env w c).world = w := by
  rcases h with hnone | ⟨link, hl, ht⟩
  · have hr : reconcile env w c
        = ⟨c, w, [Effect.linkByName c.ChannelOptions.CanInterfaceName],
            Outcome.error (Error.noLinkFound c.ChannelOptions.CanInterfaceName)⟩ := by
      simp [reconcile, hnone]
    have ho : Channel.open env w c
        = ⟨c, w, [Effect.linkByName c.ChannelOptions.CanInterfaceName],
            Outcome.error (Error.noLinkFound c.ChannelOptions.CanInterfaceName)⟩ := by
      unfold Channel.open
      simp only [hr]
    rw [ho]
    exact ⟨⟨_, rfl⟩, rfl, rfl, rfl, rfl⟩
  · have hr : reconcile env w c
        = ⟨c, w, [Effect.linkByName c.ChannelOptions.CanInterfaceName],
            Outcome.error (Error.invalidLinkType link.linkType)⟩ := by
      simp [reconcile, hl, ht]
    have ho : Channel.open env w c
        = ⟨c, w, [Effect.linkByName c.ChannelOptions.CanInterfaceName],
            Outcome.error (Error.invalidLinkType link.linkType)⟩ := by
      unfold Channel.open
      simp only [hr]
    rw [ho]
    exact ⟨⟨_, rfl⟩, rfl, rfl, rfl, rfl⟩

/-- C13, witness: "eth0", an Ethernet interface (type "device"), and "can9",
which does not exist. -/
theorem C13_no_link_or_wrong_type_witness :
    (LinkByName worldUp500k
        ({ unopened with ChannelOptions := ⟨"eth0", 0⟩ } : Channel).ChannelOptions.CanInterfaceName
        = none ∨
      ∃ link, LinkByName worldUp500k
          ({ unopened with ChannelOptions := ⟨"eth0", 0⟩ } : Channel).ChannelOptions.CanInterfaceName
          = some link ∧ link.linkType ≠ "can") ∧
    ((∃ err, (Channel.open envOk worldUp500k
        { unopened with ChannelOptions := ⟨"eth0", 0⟩ }).outcome = Outcome.error err) ∧
    (Channel.open envOk worldUp500k { unopened with ChannelOptions := ⟨"eth0", 0⟩ }).trace
      = [Effect.linkByName
          ({ unopened with ChannelOptions := ⟨"eth0", 0⟩ } : Channel).ChannelOptions.CanInterfaceName] ∧
    commands (Channel.open envOk worldUp500k
      { unopened with ChannelOptions := ⟨"eth0", 0⟩ }).trace = [] ∧
    (Channel.open envOk worldUp500k { unopened with ChannelOptions := ⟨"eth0", 0⟩ }).channel
      = { unopened with ChannelOptions := ⟨"eth0", 0⟩ } ∧
    (Channel.open envOk worldUp500k { unopened with ChannelOptions := ⟨"eth0", 0⟩ }).world
      = worldUp500k) ∧
    (Channel.open envOk worldUp500k { unopened with ChannelOptions := ⟨"eth0", 0⟩ }).outcome
      = Outcome.error (Error.invalidLinkType "device") ∧
    (Channel.open envOk worldUp500k { unopened with ChannelOptions := ⟨"can9", 0⟩ }).outcome
      = Outcome.error (Error.noLinkFound "can9") :=
  ⟨Or.inr ⟨⟨"device", LinkOperState.OperUp, 0⟩, by decide, by decide⟩,
    C13_no_link_or_wrong_type envOk worldUp500k { unopened with ChannelOptions := ⟨"eth0", 0⟩ }
      (Or.inr ⟨⟨"device", LinkOperState.OperUp, 0⟩, by decide, by decide⟩),
    by decide, by decide⟩

/-- C14, the code at the failing input: "can0" is observed up at 500000 with
250000 desired and the `ip` executable cannot be started, so the down command
fails with an error that is not an `*exec.ExitError`.  `Channel.open` then
panics with a nil pointer dereference instead of returning the error; it has
issued the down command only and has created no bus.  The same happens for the
up command when "can0" is observed down.  When the command fails with an
`*exec.ExitError`, the error is returned. -/
theorem C14_command_fails_open_panics :
    LinkByName worldUp500k "can0" = some ⟨"can", LinkOperState.OperUp, 500000⟩ ∧
    unopened.bitRate = 250000 ∧
    envNoIp.Output (Cmd.linkSetDown "can0") = CmdResult.otherError "" ∧
    Channel.open envNoIp worldUp500k unopened
      = ⟨unopened, worldUp500k, [Effect.linkByName "can0", Effect.exec (Cmd.linkSetDown "can0")],
          Outcome.panic Panic.nilDereference⟩ ∧
    Channel.open envNoIp worldDown unopened
      = ⟨unopened, worldDown, [Effect.linkByName "can0", Effect.exec (Cmd.linkSetUp "can0" 250000)],
          Outcome.panic Panic.nilDereference⟩ ∧
    (Channel.open envCommandsFail worldDown unopened).outcome
      = Outcome.error (Error.exitError (Cmd.linkSetUp "can0" 250000)
          "RTNETLINK answers: Operation not permitted") ∧
    (Channel.open envUpFails worldUp500k unopened).outcome
      = Outcome.error (Error.exitError (Cmd.linkSetUp "can0" 250000)
          "RTNETLINK answers: Invalid argument") ∧
    (Channel.open envUpFails worldUp500k unopened).channel.bus = none := by
  decide

/-- C16, the code at the failing input: `NewChannel` for "can0", observed up at
500000 with the default bit rate 250000, when the `ip` executable cannot be
started.  `NewChannel` panics with a nil pointer dereference; it returns neither
a channel nor an error.  When every call succeeds it returns the channel
`opened`, with its bus, and a nil error; when the command exits with an error
it returns no channel and the wrapped error. -/
theorem C16_new_channel_panics :
    NewChannel 250000 envNoIp worldUp500k ⟨"can0", 0⟩ []
      = (none, ⟨unopened, worldUp500k,
          [Effect.linkByName "can0", Effect.exec (Cmd.linkSetDown "can0")],
          Outcome.panic Panic.nilDereference⟩) ∧
    (NewChannel 250000 envOk worldUp500k ⟨"can0", 0⟩ []).1 = some opened ∧
    (NewChannel 250000 envOk worldUp500k ⟨"can0", 0⟩ []).2.outcome = Outcome.nil ∧
    (NewChannel 250000 envCommandsFail worldUp500k ⟨"can0", 0⟩ []).1 = none ∧
    (NewChannel 250000 envCommandsFail worldUp500k ⟨"can0", 0⟩ []).2.outcome
      = Outcome.error (Error.wrap (Error.exitError (Cmd.linkSetDown "can0")
          "RTNETLINK answers: Operation not permitted")
          "open connection to listen for messages") := by
  decide

/-- C18, the code at the failing input: `cmd.Output()` returned an error that
is not an `*exec.ExitError`.  The failure branch enters the `!worked` arm and
reads `errCast.Stderr` through the nil `errCast`: a nil pointer dereference, in
the branch of the down command and in the branch of the up command.  When the
error is an `*exec.ExitError` the arm is skipped, `Stderr` is not read, and the
error is returned. -/
theorem C18_stderr_read_through_nil :
    commandFailed (Cmd.linkSetDown "can0") (CmdResult.otherError "")
      = Outcome.panic Panic.nilDereference ∧
    commandFailed (Cmd.linkSetUp "can0" 250000) (CmdResult.otherError "")
      = Outcome.panic Panic.nilDereference ∧
    (reconcile envNoIp worldUp500k unopened).outcome = Outcome.panic Panic.nilDereference ∧
    (reconcile envNoIp worldDown unopened).outcome = Outcome.panic Panic.nilDereference ∧
    commandFailed (Cmd.linkSetDown "can0") (CmdResult.exitError "" "Cannot find device")
      = Outcome.error (Error.exitError (Cmd.linkSetDown "can0") "Cannot find device") := by
  decide

end canbus
